import Mathlib

set_option maxHeartbeats 2000000

/-!
Shallow embedding of the rules-based schema-markup pipeline:
hint parser, page classifier, policy engine, JSON-LD assembler and
structural validator, together with proofs about the claims made by the
natural-language specification of the repository.

Conventions of the embedding:
* JavaScript strings are Lean strings; regular-expression tests that are
  pure alternations of literal words are embedded as substring tests, and
  the other regexes are embedded as explicit character-list scanners with
  the same leftmost-match semantics.
* JavaScript truthiness on optional strings (undefined or empty string is
  falsy) is modelled by jsTruthyStr below; truthiness of arbitrary JSON
  values by jsTruthy.
* Confidences are modelled as rationals; every confidence literal in the
  source is an exact decimal and only max, min and comparisons are applied
  to them, so rational arithmetic is a faithful model.
* The platform Date value used for fallback dates is threaded through the
  assembler as an explicit parameter named today.
-/

/-- A JSON value, used both for pre-existing JSON-LD found on a page and
for the assembled JSON-LD document. -/
inductive Json where
  | str : String → Json
  | num : Int → Json
  | bool : Bool → Json
  | null : Json
  | arr : List Json → Json
  | obj : List (String × Json) → Json

/-- Lookup of a field in an association list of JSON object fields
(first occurrence wins, as in a JavaScript object). -/
def lookupField : List (String × Json) → String → Option Json
  | [], _ => none
  | (k', v') :: rest, k => if k' = k then some v' else lookupField rest k

/-- Property read on a JSON value: defined on objects, undefined elsewhere. -/
def jsGet (o : Json) (k : String) : Option Json :=
  match o with
  | Json.obj fields => lookupField fields k
  | _ => none

/-- Update-or-append of a field in an association list of object fields. -/
def setField : List (String × Json) → String → Json → List (String × Json)
  | [], k, v => [(k, v)]
  | (k', v') :: rest, k, v =>
      if k' = k then (k, v) :: rest else (k', v') :: setField rest k v

/-- Property write on a JSON value (the source only ever writes onto
objects). -/
def objSet (o : Json) (k : String) (v : Json) : Json :=
  match o with
  | Json.obj fields => Json.obj (setField fields k v)
  | other => other

/-- JavaScript truthiness of a JSON value: empty string, zero, false and
null are falsy; arrays and objects are always truthy. -/
def jsTruthy : Json → Bool
  | Json.str s => s ≠ ""
  | Json.num n => n ≠ 0
  | Json.bool b => b
  | Json.null => false
  | Json.arr _ => true
  | Json.obj _ => true

/-- Truthiness of an optional JSON value (a missing property is falsy). -/
def jsTruthyO : Option Json → Bool
  | none => false
  | some v => jsTruthy v

/-- Truthiness of an optional string field (undefined or empty is falsy). -/
def jsTruthyStr : Option String → Bool
  | none => false
  | some s => s ≠ ""

/-- The JavaScript expression a or-else b on an optional string and a
string, where the empty string falls through. -/
def jsOrStr (a : Option String) (b : String) : String :=
  match a with
  | some s => if s ≠ "" then s else b
  | none => b

/-- True when the first character list occurs at the head of the second. -/
def matchesAt : List Char → List Char → Bool
  | [], _ => true
  | _ :: _, [] => false
  | c :: cs, d :: ds => c == d && matchesAt cs ds

/-- True when the second character list occurs somewhere inside the
first (leftmost scan). -/
def charsContain (hay needle : List Char) : Bool :=
  matchesAt needle hay ||
    (match hay with
     | [] => false
     | _ :: t => charsContain t needle)

/-- Substring containment, the JavaScript String.prototype.includes. -/
def jsIncludes (s sub : String) : Bool :=
  charsContain s.toList sub.toList

/-- Removal of leading and trailing whitespace, the JavaScript
String.prototype.trim. -/
def jsTrim (s : String) : String :=
  String.mk
    (((s.toList.dropWhile Char.isWhitespace).reverse.dropWhile
      Char.isWhitespace).reverse)

/-- Split of a character list on newline characters, keeping empty
segments, the JavaScript String.prototype.split on a newline. -/
def splitCharsOnNl : List Char → List (List Char)
  | [] => [[]]
  | '\n' :: rest => [] :: splitCharsOnNl rest
  | c :: rest =>
      match splitCharsOnNl rest with
      | h :: t => (c :: h) :: t
      | [] => [[c]]

/-- Split of a string into its newline-separated lines. -/
def splitLines (s : String) : List String :=
  (splitCharsOnNl s.toList).map String.mk

/-- Numeric value of a list of decimal digits (the parseInt of the
source always receives plain digit runs). -/
def digitsToNat (cs : List Char) : Nat :=
  cs.foldl (fun acc c => acc * 10 + (c.toNat - 48)) 0

/-- ASCII lower-casing of one character, as applied by the source to its
ASCII keyword vocabulary. -/
def jsLowerChar (c : Char) : Char :=
  if 'A' ≤ c ∧ c ≤ 'Z' then Char.ofNat (c.toNat + 32) else c

/-- ASCII lower-casing of a string (String.prototype.toLowerCase on the
ASCII inputs handled by this pipeline). -/
def jsToLower (s : String) : String :=
  String.mk (s.toList.map jsLowerChar)

/-- The domSignals boolean bag of NormalizedContent (fetcher module). -/
structure DomSignals where
  hasPrice : Bool
  hasCurrency : Bool
  hasAddToCart : Bool
  hasSku : Bool
  hasRating : Bool
  hasReviews : Bool
  hasNAP : Bool
  hasHours : Bool
  hasMap : Bool
  hasEvent : Bool
  hasRecipe : Bool
  hasSteps : Bool
  hasByline : Bool
  hasPublishDate : Bool
  hasBreadcrumbs : Bool
  hasFAQ : Bool
  hasVideo : Bool
  hasItemList : Bool
deriving Repr, DecidableEq

/-- The meta block of NormalizedContent. -/
structure MetaTags where
  ogTitle : Option String := none
  ogDescription : Option String := none
  ogImage : Option String := none
  twitterTitle : Option String := none
  twitterDescription : Option String := none
  language : Option String := none
deriving Repr, DecidableEq

/-- NormalizedContent, the output contract of the fetcher module. -/
structure NormalizedContent where
  url : String
  canonicalUrl : Option String := none
  title : String
  description : Option String := none
  content : String
  html : String := ""
  meta : MetaTags := {}
  existingJsonLd : List Json := []
  existingMicrodata : List Json := []
  domSignals : DomSignals

/-- HintDirective, the structured result of parsing a free-text hint. -/
structure HintDirective where
  preferredType : Option String := none
  secondaryTypes : Option (List String) := none
  profile : Option String := none
  enrich : Option (List String) := none
  suppress : Option (List String) := none
  strictness : Option String := none
  language : Option String := none
  renderMode : Option String := none
  prioritySignals : Option (List String) := none
  maxItems : Option Nat := none
  forceIdRoot : Option Bool := none
deriving Repr, DecidableEq

/-- Classification, the classifier module output. -/
structure Classification where
  primaryType : String
  subtype : Option String := none
  confidence : ℚ
  features : List String
  signals : List String
deriving Repr, DecidableEq

/-- PolicyResult, the policy module output. -/
structure PolicyResult where
  primaryType : String
  subtype : Option String := none
  features : List String
  confidence : ℚ
  explanations : List String := []
  warnings : List String := []
  mentions : List String := []
deriving Repr, DecidableEq

/-! ## Classifier (classifier module of the source) -/

/-- Predicate isProduct of the classifier. -/
def isProduct (content : NormalizedContent) : Bool :=
  content.domSignals.hasPrice &&
  content.domSignals.hasCurrency &&
  (content.domSignals.hasAddToCart || content.domSignals.hasSku)

/-- Predicate isLocalBusiness of the classifier. -/
def isLocalBusiness (content : NormalizedContent) : Bool :=
  content.domSignals.hasNAP &&
  (content.domSignals.hasHours || content.domSignals.hasMap)

/-- Predicate isEvent: event signal plus a ticket, register, venue or
location keyword in the lower-cased content text. -/
def isEvent (content : NormalizedContent) : Bool :=
  content.domSignals.hasEvent &&
  (let t := jsToLower content.content
   jsIncludes t "ticket" || jsIncludes t "register" ||
   jsIncludes t "venue" || jsIncludes t "location")

/-- Predicate isRecipe of the classifier. -/
def isRecipe (content : NormalizedContent) : Bool :=
  content.domSignals.hasRecipe &&
  (let t := jsToLower content.content
   jsIncludes t "ingredients" || jsIncludes t "cooking time" ||
   jsIncludes t "prep time" || jsIncludes t "servings")

/-- Predicate isHowTo of the classifier. -/
def isHowTo (content : NormalizedContent) : Bool :=
  content.domSignals.hasSteps &&
  (let t := jsToLower content.content
   jsIncludes t "how to" || jsIncludes t "tutorial" ||
   jsIncludes t "guide" || jsIncludes t "instructions")

/-- Predicate isArticle of the classifier. -/
def isArticle (content : NormalizedContent) : Bool :=
  content.domSignals.hasByline && content.domSignals.hasPublishDate

/-- Predicate isBlogPost of the classifier. -/
def isBlogPost (content : NormalizedContent) : Bool :=
  (let u := jsToLower content.url
   jsIncludes u "blog" || jsIncludes u "post" || jsIncludes u "article") ||
  (let t := jsToLower content.content
   jsIncludes t "blog" || jsIncludes t "post")

/-- True when some decimal digit makes pre ++ digit ++ post an infix of s;
embeds a regex alternative of the form literal-digits-literal with one
mandatory digit. -/
def hasDigitBetween (s : String) (pre post : String) : Bool :=
  (List.range 10).any fun d =>
    charsContain s.toList (pre.toList ++ [Char.ofNat (48 + d)] ++ post.toList)

/-- Predicate isItemList: item-list signal plus the regex
top-N or best-N or list-of or N-best over the lower-cased content. -/
def isItemList (content : NormalizedContent) : Bool :=
  content.domSignals.hasItemList &&
  (let t := jsToLower content.content
   hasDigitBetween t "top " "" || hasDigitBetween t "best " "" ||
   jsIncludes t "list of" || hasDigitBetween t "" " best")

/-- Predicate isNewsArticle of the classifier. -/
def isNewsArticle (content : NormalizedContent) : Bool :=
  (let t := jsToLower content.content
   jsIncludes t "news" || jsIncludes t "breaking" || jsIncludes t "reuters" ||
   jsIncludes t "ap news" || jsIncludes t "cnn" || jsIncludes t "bbc") ||
  jsIncludes (jsToLower content.url) "news"

/-- Predicate isTechArticle of the classifier. -/
def isTechArticle (content : NormalizedContent) : Bool :=
  let t := jsToLower content.content
  jsIncludes t "documentation" || jsIncludes t "api" || jsIncludes t "technical" ||
  jsIncludes t "developer" || jsIncludes t "programming" || jsIncludes t "code"

/-- Predicate isReviewArticle of the classifier. -/
def isReviewArticle (content : NormalizedContent) : Bool :=
  (let t := jsToLower content.content
   jsIncludes t "review of" || jsIncludes t "rating" ||
   jsIncludes t "stars" || jsIncludes t "pros and cons") &&
  content.domSignals.hasRating

/-- detectLocalBusinessSubtype of the classifier: first matching keyword
group wins. -/
def detectLocalBusinessSubtype (content : NormalizedContent) : Option String :=
  let t := jsToLower content.content
  if jsIncludes t "restaurant" || jsIncludes t "cafe" || jsIncludes t "diner" ||
     jsIncludes t "bistro" || jsIncludes t "eatery" then some "Restaurant"
  else if jsIncludes t "dentist" || jsIncludes t "dental" ||
     jsIncludes t "orthodontist" then some "Dentist"
  else if jsIncludes t "doctor" || jsIncludes t "physician" ||
     jsIncludes t "medical" || jsIncludes t "clinic" then some "MedicalOrganization"
  else if jsIncludes t "hotel" || jsIncludes t "motel" || jsIncludes t "inn" ||
     jsIncludes t "lodge" then some "LodgingBusiness"
  else if jsIncludes t "store" || jsIncludes t "shop" || jsIncludes t "retail" ||
     jsIncludes t "boutique" then some "Store"
  else if jsIncludes t "gym" || jsIncludes t "fitness" ||
     jsIncludes t "workout" then some "ExerciseGym"
  else if jsIncludes t "salon" || jsIncludes t "spa" ||
     jsIncludes t "beauty" then some "BeautySalon"
  else none

/-- Feature detection of the classifier: independent of the primary-type
branch, pushed in this fixed order. -/
def detectFeatures (content : NormalizedContent) : List String :=
  (if content.domSignals.hasPrice && content.domSignals.hasCurrency
     then ["offers"] else []) ++
  (if content.domSignals.hasRating then ["aggregateRating"] else []) ++
  (if content.domSignals.hasReviews then ["reviews"] else []) ++
  (if content.domSignals.hasBreadcrumbs then ["breadcrumbs"] else []) ++
  (if content.domSignals.hasFAQ then ["faq"] else []) ++
  (if content.domSignals.hasVideo then ["video"] else [])

/-- The confidence boost from pre-existing JSON-LD: if the first existing
JSON-LD block has a truthy string at-type, confidence starts at
max 0.5 0.8, else at 0.5. -/
def existingConf (content : NormalizedContent) : ℚ :=
  match content.existingJsonLd with
  | [] => 0.5
  | e :: _ =>
      match jsGet e "@type" with
      | some (Json.str t) => if t ≠ "" then max 0.5 0.8 else 0.5
      | _ => 0.5

/-- The signal string pushed for pre-existing JSON-LD with a truthy string
at-type. -/
def existingSig (content : NormalizedContent) : List String :=
  match content.existingJsonLd with
  | [] => []
  | e :: _ =>
      match jsGet e "@type" with
      | some (Json.str t) => if t ≠ "" then ["Existing JSON-LD: " ++ t] else []
      | _ => []

/-- The rules-based classification cascade of classifyPage, run when no
truthy hint preferredType is present; conf0 and sig0 are the confidence
and signals accumulated from pre-existing JSON-LD. -/
def classifyCascade (content : NormalizedContent) (conf0 : ℚ)
    (sig0 : List String) : Classification :=
  if isProduct content then
    { primaryType := "Product", subtype := none, confidence := 0.9,
      features := detectFeatures content,
      signals := sig0 ++ ["Price + currency detected"] ++
        (if content.domSignals.hasAddToCart then ["Add to cart button found"] else []) ++
        (if content.domSignals.hasSku then ["SKU/product ID found"] else []) }
  else if isLocalBusiness content then
    { primaryType := "LocalBusiness",
      subtype := detectLocalBusinessSubtype content, confidence := 0.85,
      features := detectFeatures content,
      signals := sig0 ++ ["NAP (Name, Address, Phone) detected"] ++
        (if content.domSignals.hasHours then ["Business hours found"] else []) ++
        (if content.domSignals.hasMap then ["Map/location found"] else []) }
  else if isEvent content then
    { primaryType := "Event", subtype := none, confidence := 0.8,
      features := detectFeatures content,
      signals := sig0 ++ ["Event date/time detected"] }
  else if isRecipe content then
    { primaryType := "Recipe", subtype := none, confidence := 0.85,
      features := detectFeatures content,
      signals := sig0 ++ ["Ingredients and cooking steps found"] }
  else if isHowTo content then
    { primaryType := "HowTo", subtype := none, confidence := 0.8,
      features := detectFeatures content,
      signals := sig0 ++ ["Step-by-step instructions detected"] }
  else if isArticle content then
    { primaryType := if isBlogPost content then "BlogPosting" else "Article",
      subtype :=
        if isNewsArticle content then some "NewsArticle"
        else if isTechArticle content then some "TechArticle"
        else if isReviewArticle content then some "Review"
        else none,
      confidence := if isBlogPost content then 0.8 else 0.75,
      features := detectFeatures content,
      signals := sig0 ++
        (if isBlogPost content then ["Blog post structure detected"]
         else ["Article structure with byline/date"]) ++
        (if isNewsArticle content then ["News article indicators found"]
         else if isTechArticle content then ["Technical documentation detected"]
         else if isReviewArticle content then ["Review with rating detected"]
         else []) }
  else if isItemList content then
    { primaryType := "ItemList", subtype := none, confidence := 0.8,
      features := detectFeatures content,
      signals := sig0 ++ ["Numbered list with internal links"] }
  else
    { primaryType := "WebPage", subtype := none, confidence := conf0,
      features := detectFeatures content, signals := sig0 }

/-- classifyPage of the classifier module: existing JSON-LD boost, then
hint preference (a truthy preferredType short-circuits the cascade), else
the rules cascade; feature detection always runs. -/
def classifyPage (content : NormalizedContent)
    (hintDirective : HintDirective) : Classification :=
  let conf0 := existingConf content
  let sig0 := existingSig content
  match hintDirective.preferredType with
  | some t =>
      if t ≠ "" then
        { primaryType := t, subtype := none, confidence := max conf0 0.7,
          features := detectFeatures content,
          signals := sig0 ++ ["Hint: " ++ t] }
      else classifyCascade content conf0 sig0
  | none => classifyCascade content conf0 sig0

/-! ## Policy engine (policy module of the source) -/

/-- QualityGateResult of the policy module. -/
structure QualityGateResult where
  downgraded : Bool
  newType : Option String := none
  newSubtype : Option String := none
  reason : Option String := none
  warnings : List String := []
deriving Repr, DecidableEq

/-- applyQualityGates of the policy module: a Product classification
without a price signal, or a LocalBusiness classification without a NAP
signal, is downgraded (early return); otherwise warnings accumulate for a
Product without a clear currency, an Article or BlogPosting without byline
or publish date, and a missing OpenGraph image. -/
def applyQualityGates (classification : Classification)
    (content : NormalizedContent) : QualityGateResult :=
  if classification.primaryType = "Product" && !content.domSignals.hasPrice then
    { downgraded := true, newType := some "WebPage",
      reason := some "No price found",
      warnings := ["Product requires visible price"] }
  else if classification.primaryType = "LocalBusiness" &&
      !content.domSignals.hasNAP then
    { downgraded := true, newType := some "WebPage",
      reason := some "Incomplete NAP (Name, Address, Phone)",
      warnings := ["LocalBusiness requires complete contact information"] }
  else
    { downgraded := false,
      warnings :=
        (if classification.primaryType = "Product" &&
            !content.domSignals.hasCurrency then
          ["Price found but currency not clearly specified"] else []) ++
        (if (classification.primaryType = "Article" ||
             classification.primaryType = "BlogPosting") &&
            !content.domSignals.hasByline then
          ["Article missing author byline"] else []) ++
        (if (classification.primaryType = "Article" ||
             classification.primaryType = "BlogPosting") &&
            !content.domSignals.hasPublishDate then
          ["Article missing publication date"] else []) ++
        (if jsTruthyStr content.meta.ogImage then []
         else ["No featured image found - may affect rich results"]) }

/-- The enrichment loop of applyPolicy: each hinted feature not already
present is appended, with a matching explanation. -/
def enrichFeatures (features explanations : List String) :
    List String → List String × List String
  | [] => (features, explanations)
  | f :: rest =>
      if features.contains f then enrichFeatures features explanations rest
      else enrichFeatures (features ++ [f])
        (explanations ++ ["Added feature: " ++ f]) rest

/-- applyStrictValidation of the policy module: offers, aggregateRating
and reviews are re-validated against domSignals, every other feature
passes through; returns the kept features and the warnings pushed. -/
def applyStrictValidation (features : List String)
    (content : NormalizedContent) : List String × List String :=
  match features with
  | [] => ([], [])
  | f :: rest =>
      let r := applyStrictValidation rest content
      if f = "offers" then
        if content.domSignals.hasPrice && content.domSignals.hasCurrency then
          (f :: r.1, r.2)
        else (r.1, "Offers feature requires visible price and currency" :: r.2)
      else if f = "aggregateRating" then
        if content.domSignals.hasRating then (f :: r.1, r.2)
        else (r.1, "AggregateRating feature requires visible rating" :: r.2)
      else if f = "reviews" then
        if content.domSignals.hasReviews then (f :: r.1, r.2)
        else (r.1, "Reviews feature requires visible review content" :: r.2)
      else (f :: r.1, r.2)

/-- detectConflictingTypes of the policy module: when one signal string
contains Product and one contains Article, the Product type is demoted. -/
def detectConflictingTypes (signals : List String) : List String :=
  if signals.any (fun s => jsIncludes s "Product") &&
     signals.any (fun s => jsIncludes s "Article") then ["Product"]
  else []

/-- applyPolicy of the policy module: quality gates, hint suppression,
hint enrichment, strictness filtering, conflict resolution, then the
classifier signals are appended to the explanations. -/
def applyPolicy (classification : Classification)
    (content : NormalizedContent) (hintDirective : HintDirective) :
    PolicyResult :=
  let q := applyQualityGates classification content
  let primaryType :=
    if q.downgraded then q.newType.getD "" else classification.primaryType
  let subtype :=
    if q.downgraded then q.newSubtype else classification.subtype
  let confidence :=
    if q.downgraded then min classification.confidence 0.6
    else classification.confidence
  let e1 : List String :=
    if q.downgraded then
      ["Downgraded from " ++ classification.primaryType ++ " to " ++
        primaryType ++ ": " ++ q.reason.getD ""]
    else []
  let w1 : List String := if q.downgraded then q.warnings else []
  let features1 :=
    match hintDirective.suppress with
    | some sup => classification.features.filter (fun f => !sup.contains f)
    | none => classification.features
  let e2 : List String :=
    match hintDirective.suppress with
    | some sup => ["Suppressed features: " ++ String.intercalate ", " sup]
    | none => []
  let enriched :=
    match hintDirective.enrich with
    | some enr => enrichFeatures features1 [] enr
    | none => (features1, [])
  let strict :=
    if hintDirective.strictness = some "strict" then
      applyStrictValidation enriched.1 content
    else (enriched.1, [])
  let conflicting :=
    if classification.signals.length > 1 then
      detectConflictingTypes classification.signals
    else []
  let e4 : List String :=
    if classification.signals.length > 1 && conflicting.length > 0 then
      ["Conflicting types moved to mentions: " ++
        String.intercalate ", " conflicting]
    else []
  { primaryType := primaryType, subtype := subtype,
    features := strict.1, confidence := confidence,
    explanations := e1 ++ e2 ++ enriched.2 ++ e4 ++ classification.signals,
    warnings := w1 ++ strict.2,
    mentions := conflicting }

/-! ## Hint parser (hint module of the source) -/

/-- The fixed vocabulary of recognized schema.org types. -/
def VALID_TYPES : List String :=
  ["Product", "BlogPosting", "Article", "ItemList", "LocalBusiness",
   "Event", "Recipe", "Course", "HowTo", "SoftwareApplication", "WebPage"]

/-- The fixed vocabulary of recognized profiles. -/
def VALID_PROFILES : List String :=
  ["blog", "store", "local", "recipe", "events", "saas", "auto"]

/-- The fixed vocabulary of feature names known to the hint parser. -/
def VALID_FEATURES : List String :=
  ["about", "mentions", "sameAs", "brand", "authorSameAs", "offers",
   "faq", "video", "howtoSteps", "reviews", "aggregateRating"]

/-- The fixed vocabulary of strictness levels. -/
def VALID_STRICTNESS : List String := ["lenient", "normal", "strict"]

/-- The fixed vocabulary of render modes. -/
def VALID_RENDER_MODES : List String := ["auto", "html", "headless"]

/-- The fixed vocabulary of priority signals. -/
def VALID_SIGNALS : List String :=
  ["byline", "price", "rating", "sku", "map", "steps", "dates"]

/-- The language codes of the simple-language regex alternation, in
alternation order. -/
def LANG_CODES : List String :=
  ["en", "es", "fr", "de", "it", "pt", "sv", "da", "no", "fi", "nl",
   "pl", "ru", "ja", "ko", "zh", "ar"]

/-- A regex word character: ASCII letter, digit or underscore. -/
def isWordChar (c : Char) : Bool :=
  ('a' ≤ c && c ≤ 'z') || ('A' ≤ c && c ≤ 'Z') ||
  ('0' ≤ c && c ≤ '9') || c = '_'

/-- A word boundary before the current position, given the previous
character (none at the start of the string); the pattern characters here
always start with a word character. -/
def boundaryBefore : Option Char → Bool
  | none => true
  | some c => !isWordChar c

/-- A word boundary after a match ending right before the given rest of
the input. -/
def boundaryAfter : List Char → Bool
  | [] => true
  | c :: _ => !isWordChar c

/-- Attempts, at the current position, each two-letter language code of
the alternation in order, requiring a word boundary on both sides. -/
def tryLangCodes (prev : Option Char) (cs : List Char) : Option String :=
  if boundaryBefore prev then
    LANG_CODES.find? fun code =>
      match cs with
      | c1 :: c2 :: rest =>
          code.toList = [c1, c2] && boundaryAfter rest
      | _ => false
  else none

/-- Leftmost match of the simple-language-code regex: at each position,
the alternatives are tried in order. -/
def langFind : Option Char → List Char → Option String
  | prev, [] => tryLangCodes prev []
  | prev, c :: rest =>
      match tryLangCodes prev (c :: rest) with
      | some m => some m
      | none => langFind (some c) rest

/-- An ASCII lowercase letter. -/
def isLowerAZ (c : Char) : Bool := 'a' ≤ c && c ≤ 'z'

/-- An ASCII uppercase letter. -/
def isUpperAZ (c : Char) : Bool := 'A' ≤ c && c ≤ 'Z'

/-- Attempts, at the current position, the BCP-47 pattern of the source:
two lowercase letters, a hyphen, two uppercase letters, with word
boundaries on both sides. -/
def tryBcpAt (prev : Option Char) (cs : List Char) : Option String :=
  if boundaryBefore prev then
    match cs with
    | c1 :: c2 :: '-' :: c4 :: c5 :: rest =>
        if isLowerAZ c1 && isLowerAZ c2 && isUpperAZ c4 && isUpperAZ c5 &&
           boundaryAfter rest then
          some (String.mk [c1, c2, '-', c4, c5])
        else none
    | _ => none
  else none

/-- Leftmost match of the BCP-47 regex of the source. -/
def bcpFind : Option Char → List Char → Option String
  | prev, [] => tryBcpAt prev []
  | prev, c :: rest =>
      match tryBcpAt prev (c :: rest) with
      | some m => some m
      | none => bcpFind (some c) rest

/-- Greedy run of decimal digits at the head of the input; returns the
digits and the rest. -/
def takeDigits : List Char → List Char × List Char
  | [] => ([], [])
  | c :: rest =>
      if c.isDigit then
        let r := takeDigits rest
        (c :: r.1, r.2)
      else ([], c :: rest)

/-- Greedy run of whitespace at the head of the input. -/
def takeSpaces : List Char → List Char × List Char
  | [] => ([], [])
  | c :: rest =>
      if c.isWhitespace then
        let r := takeSpaces rest
        (c :: r.1, r.2)
      else ([], c :: rest)

/-- Attempts, at the current position, one alternative of the max-items
regex: the literal keyword, one or more whitespace characters, then one
or more digits, whose digits are returned. -/
def tryCapWordAt (word : String) (cs : List Char) : Option (List Char) :=
  if matchesAt word.toList cs then
    let afterWord := cs.drop word.length
    let sp := takeSpaces afterWord
    if sp.1.length > 0 then
      let dg := takeDigits sp.2
      if dg.1.length > 0 then some dg.1 else none
    else none
  else none

/-- Leftmost match of the max-items regex alternation cap-N, max-N,
limit-N; the captured digits are parsed as a number. -/
def maxItemsFind : List Char → Option Nat
  | [] => none
  | c :: rest =>
      match tryCapWordAt "cap" (c :: rest) with
      | some ds => some (digitsToNat ds)
      | none =>
        match tryCapWordAt "max" (c :: rest) with
        | some ds => some (digitsToNat ds)
        | none =>
          match tryCapWordAt "limit" (c :: rest) with
          | some ds => some (digitsToNat ds)
          | none => maxItemsFind rest

/-- parseHint of the hint module. The scans run over the lower-cased
hint text; first enum member that appears as a substring wins. -/
def parseHint (hint : String) : HintDirective :=
  if jsTrim hint = "" then {}
  else
    let text := jsToLower hint
    let preferredType :=
      VALID_TYPES.find? fun t => jsIncludes text (jsToLower t)
    let profile := VALID_PROFILES.find? fun p => jsIncludes text p
    let strictness := VALID_STRICTNESS.find? fun s => jsIncludes text s
    let renderMode := VALID_RENDER_MODES.find? fun m => jsIncludes text m
    let lang0 := langFind none text.toList
    let language :=
      match bcpFind none text.toList with
      | some b => some b
      | none => lang0
    let maxItems := maxItemsFind text.toList
    let enrich := VALID_FEATURES.filter fun f =>
      jsIncludes text ("include " ++ f) || jsIncludes text ("add " ++ f) ||
      jsIncludes text ("enrich " ++ f)
    let suppress := VALID_FEATURES.filter fun f =>
      jsIncludes text ("ignore " ++ f) || jsIncludes text ("suppress " ++ f) ||
      jsIncludes text ("no " ++ f)
    let prioritySignals := VALID_SIGNALS.filter fun s => jsIncludes text s
    { preferredType := preferredType, profile := profile,
      strictness := strictness, renderMode := renderMode,
      language := language, maxItems := maxItems,
      enrich := some enrich, suppress := some suppress,
      prioritySignals := some prioritySignals }

/-! ## URL model

The source relies on the platform WHATWG URL constructor for protocol,
host and hostname extraction and for URL validation.  parseURL below is
the model of that platform primitive used by this development: it accepts
strings of the shape scheme://authority... with a non-empty alphabetic
scheme and a non-empty host, which covers exactly the http(s)-style URLs
this pipeline handles. -/

/-- An ASCII letter. -/
def isAsciiLetter (c : Char) : Bool := isLowerAZ c || isUpperAZ c

/-- A character allowed in a URL scheme after the first letter. -/
def isSchemeChar (c : Char) : Bool :=
  isAsciiLetter c || c.isDigit || c = '+' || c = '-' || c = '.'

/-- Splits a character list at the first occurrence of the literal
separator colon-slash-slash. -/
def findSchemeSplit : List Char → Option (List Char × List Char)
  | [] => none
  | c :: rest =>
      if c = ':' && matchesAt ['/', '/'] rest then some ([], rest.drop 2)
      else
        match findSchemeSplit rest with
        | some (pre, post) => some (c :: pre, post)
        | none => none

/-- The components of a parsed URL used by the source: protocol keeps its
trailing colon, host is the authority, hostname is the host without a
port. -/
structure URLParts where
  protocol : String
  host : String
  hostname : String
deriving Repr, DecidableEq

/-- A character that ends the authority component. -/
def endsAuthority (c : Char) : Bool := c = '/' || c = '?' || c = '#'

/-- Model of the platform URL constructor (see the section comment). -/
def parseURL (s : String) : Option URLParts :=
  match findSchemeSplit s.toList with
  | none => none
  | some (pre, post) =>
      match pre with
      | [] => none
      | c0 :: restPre =>
          if isAsciiLetter c0 && restPre.all isSchemeChar then
            let hostChars := post.takeWhile (fun c => !endsAuthority c)
            let hostnameChars := hostChars.takeWhile (fun c => c ≠ ':')
            if hostChars ≠ [] && hostnameChars ≠ [] then
              some { protocol := String.mk (pre ++ [':']),
                     host := String.mk hostChars,
                     hostname := String.mk hostnameChars }
            else none
          else none

/-- String rendering of a JSON value inside a template literal; an
approximation of JavaScript string coercion, adequate here because the
proofs only depend on the fixed message text before the coerced value. -/
def jsDisplay : Json → String
  | Json.str s => s
  | Json.num n => toString n
  | Json.bool b => if b then "true" else "false"
  | Json.null => "null"
  | Json.arr _ => ""
  | Json.obj _ => "[object Object]"

/-! ## Assembler extraction helpers (assembler module of the source) -/

/-- Attempt, at the current position, the date pattern of four digits,
hyphen, two digits, hyphen, two digits. -/
def tryDateAt (cs : List Char) : Option String :=
  match cs with
  | a :: b :: c :: d :: '-' :: e :: f :: '-' :: g :: h :: _ =>
      if a.isDigit && b.isDigit && c.isDigit && d.isDigit &&
         e.isDigit && f.isDigit && g.isDigit && h.isDigit then
        some (String.mk [a, b, c, d, '-', e, f, '-', g, h])
      else none
  | _ => none

/-- Leftmost match of the YYYY-MM-DD date regex of the source. -/
def dateFind : List Char → Option String
  | [] => none
  | c :: rest =>
      match tryDateAt (c :: rest) with
      | some m => some m
      | none => dateFind rest

/-- extractOrganizationName: the hostname of the raw URL with one leading
www. stripped. -/
def extractOrganizationName (content : NormalizedContent) : Option String :=
  (parseURL content.url).map fun u =>
    if matchesAt "www.".toList u.hostname.toList then
      String.mk (u.hostname.toList.drop 4)
    else u.hostname

/-- extractSiteName: OpenGraph title, else content title, else the
organization name (the URL is only parsed when both are falsy). -/
def extractSiteName (content : NormalizedContent) : Option String :=
  if jsTruthyStr content.meta.ogTitle then some (content.meta.ogTitle.getD "")
  else if content.title ≠ "" then some content.title
  else extractOrganizationName content

/-- extractCurrency of the assembler. -/
def extractCurrency (content : NormalizedContent) : String :=
  if jsIncludes content.content "$" then "USD"
  else if jsIncludes content.content "€" then "EUR"
  else if jsIncludes content.content "£" then "GBP"
  else "USD"

/-- Attempt, at the current position, the price pattern: a currency
symbol, one or more digits, optionally a dot and exactly two digits;
returns the captured number text. -/
def tryPriceAt (cs : List Char) : Option String :=
  match cs with
  | c :: rest =>
      if c = '$' || c = '€' || c = '£' then
        let dg := takeDigits rest
        if dg.1 = [] then none
        else
          match dg.2 with
          | '.' :: d1 :: d2 :: _ =>
              if d1.isDigit && d2.isDigit then
                some (String.mk (dg.1 ++ ['.', d1, d2]))
              else some (String.mk dg.1)
          | _ => some (String.mk dg.1)
      else none
  | [] => none

/-- Leftmost match of the price regex. -/
def priceFind : List Char → Option String
  | [] => none
  | c :: rest =>
      match tryPriceAt (c :: rest) with
      | some m => some m
      | none => priceFind rest

/-- extractPrice of the assembler: the captured number, else 0. -/
def extractPrice (content : NormalizedContent) : String :=
  (priceFind content.content.toList).getD "0"

/-- Case-insensitive literal match at the current position. -/
def matchesCiAt (pat : List Char) (cs : List Char) : Bool :=
  match pat, cs with
  | [], _ => true
  | _ :: _, [] => false
  | p :: ps, c :: rest => jsLowerChar p == jsLowerChar c && matchesCiAt ps rest

/-- The continuation of the rating regex after the captured number:
optional whitespace, the words out-of or a slash, optional whitespace and
one or more digits. -/
def ratingTail (cs : List Char) : Bool :=
  let sp := takeSpaces cs
  let afterKw :=
    if matchesAt "out of".toList sp.2 then some (sp.2.drop 6)
    else if matchesAt "/".toList sp.2 then some (sp.2.drop 1)
    else none
  match afterKw with
  | none => false
  | some rest =>
      let sp2 := takeSpaces rest
      (takeDigits sp2.2).1 ≠ []

/-- Attempt, at the current position, the rating pattern: digits with an
optional fraction, then the rating tail; returns the captured value. -/
def tryRatingAt (cs : List Char) : Option String :=
  let dg := takeDigits cs
  if dg.1 = [] then none
  else
    let withFrac : Option String :=
      match dg.2 with
      | '.' :: r2 =>
          let fr := takeDigits r2
          if fr.1 ≠ [] && ratingTail fr.2 then
            some (String.mk (dg.1 ++ ['.'] ++ fr.1))
          else none
      | _ => none
    match withFrac with
    | some m => some m
    | none => if ratingTail dg.2 then some (String.mk dg.1) else none

/-- Leftmost match of the rating regex. -/
def ratingFind : List Char → Option String
  | [] => none
  | c :: rest =>
      match tryRatingAt (c :: rest) with
      | some m => some m
      | none => ratingFind rest

/-- extractRating of the assembler: the captured value, else 5. -/
def extractRating (content : NormalizedContent) : String :=
  (ratingFind content.content.toList).getD "5"

/-- Attempt, at the current position, the rating-count pattern: digits,
optional whitespace, the word review case-insensitively. -/
def tryCountAt (cs : List Char) : Option String :=
  let dg := takeDigits cs
  if dg.1 = [] then none
  else
    let sp := takeSpaces dg.2
    if matchesCiAt "review".toList sp.2 then some (String.mk dg.1) else none

/-- Leftmost match of the review-count regex. -/
def countFind : List Char → Option String
  | [] => none
  | c :: rest =>
      match tryCountAt (c :: rest) with
      | some m => some m
      | none => countFind rest

/-- extractRatingCount of the assembler: the captured count, else 1. -/
def extractRatingCount (content : NormalizedContent) : String :=
  (countFind content.content.toList).getD "1"

/-- Greedy run of ASCII letters at the head of the input. -/
def takeLetters : List Char → List Char × List Char
  | [] => ([], [])
  | c :: rest =>
      if isAsciiLetter c then
        let r := takeLetters rest
        (c :: r.1, r.2)
      else ([], c :: rest)

/-- The capture of the author regex after the introducing keyword: one or
more whitespace characters, then two letter words of length at least two
separated by a single space (the case classes collapse under the
case-insensitive flag of the source regex). -/
def authorName (cs : List Char) : Option String :=
  let sp := takeSpaces cs
  if sp.1 = [] then none
  else
    let w1 := takeLetters sp.2
    if w1.1.length < 2 then none
    else
      match w1.2 with
      | ' ' :: r2 =>
          let w2 := takeLetters r2
          if w2.1.length < 2 then none
          else some (String.mk (w1.1 ++ [' '] ++ w2.1))
      | _ => none

/-- Attempt, at the current position, the author pattern with its keyword
alternation tried in order: by, author, written-by. -/
def tryAuthorAt (cs : List Char) : Option String :=
  if matchesCiAt "by".toList cs then
    match authorName (cs.drop 2) with
    | some m => some m
    | none => tryAuthorRest cs
  else tryAuthorRest cs
where
  /-- The remaining keyword alternatives of the author pattern. -/
  tryAuthorRest (cs : List Char) : Option String :=
    if matchesCiAt "author".toList cs then
      match authorName (cs.drop 6) with
      | some m => some m
      | none =>
          if matchesCiAt "written by".toList cs then authorName (cs.drop 10)
          else none
    else if matchesCiAt "written by".toList cs then authorName (cs.drop 10)
    else none

/-- Leftmost match of the author regex. -/
def authorFind : List Char → Option String
  | [] => none
  | c :: rest =>
      match tryAuthorAt (c :: rest) with
      | some m => some m
      | none => authorFind rest

/-- extractAuthor of the assembler: the captured name, else Anonymous. -/
def extractAuthor (content : NormalizedContent) : String :=
  (authorFind content.content.toList).getD "Anonymous"

/-- extractPublishDate of the assembler: the first YYYY-MM-DD in the
content, else the current date (threaded as the today parameter). -/
def extractPublishDate (today : String) (content : NormalizedContent) : String :=
  (dateFind content.content.toList).getD today

/-- A character of the address regex middle class: letters and
whitespace. -/
def isAddrClassChar (c : Char) : Bool := isAsciiLetter c || c.isWhitespace

/-- The street-keyword alternation of the address regex, in alternation
order; returns the matched characters of the input (case preserved). -/
def addrKeywordAt (cs : List Char) : Option (List Char) :=
  let kws := ["Street", "St", "Avenue", "Ave", "Road", "Rd",
              "Boulevard", "Blvd"]
  match kws.find? (fun kw => matchesCiAt kw.toList cs) with
  | some kw => some (cs.take kw.length)
  | none => none

/-- Backtracking search of the greedy letters-and-whitespace run of the
address regex: the run prefix is shrunk from longest to shortest (down to
length two, one whitespace plus one class character) until a street
keyword matches right after it. -/
def addrBack (run afterRun : List Char) : Nat → Option (List Char)
  | 0 => none
  | k + 1 =>
      let here :=
        if k + 1 ≥ 2 then
          match addrKeywordAt (run.drop (k + 1) ++ afterRun) with
          | some kw => some (run.take (k + 1) ++ kw)
          | none => none
        else none
      match here with
      | some m => some m
      | none => addrBack run afterRun k

/-- Attempt, at the current position, the address pattern: digits, then a
whitespace-led letters-and-whitespace run ending in a street keyword. -/
def tryAddrAt (cs : List Char) : Option String :=
  let dg := takeDigits cs
  if dg.1 = [] then none
  else
    let run := dg.2.takeWhile isAddrClassChar
    let afterRun := dg.2.drop run.length
    match run with
    | [] => none
    | c0 :: _ =>
        if c0.isWhitespace then
          match addrBack run afterRun run.length with
          | some m => some (String.mk (dg.1 ++ m))
          | none => none
        else none

/-- Leftmost match of the address regex. -/
def addrFind : List Char → Option String
  | [] => none
  | c :: rest =>
      match tryAddrAt (c :: rest) with
      | some m => some m
      | none => addrFind rest

/-- extractAddress of the assembler: a PostalAddress node when the street
pattern is found. -/
def extractAddress (content : NormalizedContent) : Option Json :=
  (addrFind content.content.toList).map fun street =>
    Json.obj [("@type", Json.str "PostalAddress"),
              ("streetAddress", Json.str street)]

/-- A separator character of the phone regex: hyphen, dot or
whitespace. -/
def isPhoneSep (c : Char) : Bool := c = '-' || c = '.' || c.isWhitespace

/-- Exactly n digits at the head of the input. -/
def takeNDigits (n : Nat) (cs : List Char) : Option (List Char × List Char) :=
  match n, cs with
  | 0, rest => some ([], rest)
  | _ + 1, [] => none
  | m + 1, c :: rest =>
      if c.isDigit then
        (takeNDigits m rest).map fun r => (c :: r.1, r.2)
      else none

/-- The phone pattern after the first digit group: an optional separator
(greedily tried first), three digits, an optional separator, four
digits. -/
def phoneTail (cs : List Char) : Option (List Char) :=
  let attempt : List Char → Option (List Char) := fun rest =>
    match takeNDigits 3 rest with
    | none => none
    | some (d2, rest2) =>
        let attempt2 : List Char → Option (List Char) := fun rest' =>
          (takeNDigits 4 rest').map fun r => r.1
        let withSep2 :=
          match rest2 with
          | c :: rest3 =>
              if isPhoneSep c then
                (attempt2 rest3).map fun tail => [c] ++ tail
              else none
          | [] => none
        match withSep2 with
        | some tail => some (d2 ++ tail)
        | none => (attempt2 rest2).map fun tail => d2 ++ tail
  let withSep :=
    match cs with
    | c :: rest =>
        if isPhoneSep c then (attempt rest).map fun tail => [c] ++ tail
        else none
    | [] => none
  match withSep with
  | some tail => some tail
  | none => attempt cs

/-- Attempt, at the current position, the phone pattern. -/
def tryPhoneAt (cs : List Char) : Option String :=
  match takeNDigits 3 cs with
  | none => none
  | some (d1, rest) =>
      (phoneTail rest).map fun tail => String.mk (d1 ++ tail)

/-- Leftmost match of the phone regex. -/
def phoneFind : List Char → Option String
  | [] => none
  | c :: rest =>
      match tryPhoneAt (c :: rest) with
      | some m => some m
      | none => phoneFind rest

/-- extractPhone of the assembler. -/
def extractPhone (content : NormalizedContent) : Option String :=
  phoneFind content.content.toList

/-- extractOpeningHours of the assembler: a fixed placeholder. -/
def extractOpeningHours (_content : NormalizedContent) : List String :=
  ["Mo-Fr 09:00-17:00"]

/-- extractEventDate of the assembler: the first YYYY-MM-DD in the
content, else the current date. -/
def extractEventDate (today : String) (content : NormalizedContent) : String :=
  (dateFind content.content.toList).getD today

/-- extractEventLocation of the assembler: a fixed placeholder Place. -/
def extractEventLocation (_content : NormalizedContent) : Json :=
  Json.obj [("@type", Json.str "Place"), ("name", Json.str "Event Location")]

/-- Test for a line starting with optional whitespace then a digit. -/
def lineStartsNum (line : String) : Bool :=
  match (takeSpaces line.toList).2 with
  | c :: _ => c.isDigit
  | [] => false

/-- Test for a line starting with optional whitespace, digits and a
dot. -/
def lineStartsNumDot (line : String) : Bool :=
  let afterSp := (takeSpaces line.toList).2
  let dg := takeDigits afterSp
  dg.1 ≠ [] &&
    (match dg.2 with
     | '.' :: _ => true
     | _ => false)

/-- Removal of the leading whitespace-digits-dot-whitespace pattern from
a line (the line is left unchanged when the pattern is absent). -/
def stripNumDot (line : String) : String :=
  let afterSp := (takeSpaces line.toList).2
  let dg := takeDigits afterSp
  if dg.1 ≠ [] then
    match dg.2 with
    | '.' :: r => String.mk (takeSpaces r).2
    | _ => line
  else line

/-- The unit-keyword alternation test of the unit regex: cup,
tablespoon, teaspoon, pound or ounce anywhere in the line
(case-sensitive, as in the source). -/
def hasUnitKeyword (line : String) : Bool :=
  jsIncludes line "cup" || jsIncludes line "tablespoon" ||
  jsIncludes line "teaspoon" || jsIncludes line "pound" ||
  jsIncludes line "ounce"

/-- extractIngredients of the assembler: numbered lines containing a unit
keyword, trimmed, with a two-placeholder fallback. -/
def extractIngredients (content : NormalizedContent) : List String :=
  let lines := splitLines content.content
  let ingredients := (lines.filter fun line =>
    lineStartsNum line && hasUnitKeyword line).map jsTrim
  if ingredients.length > 0 then ingredients
  else ["Ingredient 1", "Ingredient 2"]

/-- A HowToStep node. -/
def howToStep (text : String) : Json :=
  Json.obj [("@type", Json.str "HowToStep"), ("text", Json.str text)]

/-- extractRecipeInstructions of the assembler: numbered lines mapped to
HowToStep nodes, with a one-placeholder fallback. -/
def extractRecipeInstructions (content : NormalizedContent) : List Json :=
  let lines := splitLines content.content
  let instructions := (lines.filter lineStartsNumDot).map fun line =>
    howToStep (jsTrim (stripNumDot line))
  if instructions.length > 0 then instructions
  else [howToStep "Follow the recipe instructions"]

/-- The unit alternation of the cook-time regex, tried in order; returns
the matched length and whether the unit is an hour unit. -/
def cookUnitAt (cs : List Char) : Option Bool :=
  if matchesCiAt "minute".toList cs then some false
  else if matchesCiAt "min".toList cs then some false
  else if matchesCiAt "hour".toList cs then some true
  else if matchesCiAt "hr".toList cs then some true
  else none

/-- Attempt, at the current position, the cook-time pattern: digits,
optional whitespace, a duration unit; returns the number and the hour
flag. -/
def tryCookAt (cs : List Char) : Option (Nat × Bool) :=
  let dg := takeDigits cs
  if dg.1 = [] then none
  else
    let sp := takeSpaces dg.2
    (cookUnitAt sp.2).map fun isHour =>
      (digitsToNat dg.1, isHour)

/-- Leftmost match of the cook-time regex. -/
def cookFind : List Char → Option (Nat × Bool)
  | [] => none
  | c :: rest =>
      match tryCookAt (c :: rest) with
      | some m => some m
      | none => cookFind rest

/-- extractCookTime of the assembler: an ISO-8601 duration when a time
expression is found. -/
def extractCookTime (content : NormalizedContent) : Option String :=
  (cookFind content.content.toList).map fun r =>
    if r.2 then "PT" ++ toString r.1 ++ "H" else "PT" ++ toString r.1 ++ "M"

/-- Test for a line starting with the word step, a space and a digit,
case-insensitively. -/
def lineStartsStep (line : String) : Bool :=
  match line.toList with
  | s :: t :: e :: p :: ' ' :: d :: _ =>
      matchesCiAt "step".toList [s, t, e, p] && d.isDigit
  | _ => false

/-- Removal of the leading step prefix of the how-to strip pattern:
optional whitespace, then either digits-dot or the word step, a space,
digits and an optional colon, then optional whitespace. -/
def stripStepPrefixes (line : String) : String :=
  let afterSp := (takeSpaces line.toList).2
  let dg := takeDigits afterSp
  if dg.1 ≠ [] then
    match dg.2 with
    | '.' :: r => String.mk (takeSpaces r).2
    | _ => line
  else if matchesCiAt "step ".toList afterSp then
    let dg2 := takeDigits (afterSp.drop 5)
    if dg2.1 ≠ [] then
      match dg2.2 with
      | ':' :: r => String.mk (takeSpaces r).2
      | r => String.mk (takeSpaces r).2
    else line
  else line

/-- extractHowToSteps of the assembler: numbered or step-prefixed lines
mapped to HowToStep nodes, with a one-placeholder fallback. -/
def extractHowToSteps (content : NormalizedContent) : List Json :=
  let lines := splitLines content.content
  let steps := (lines.filter fun line =>
    lineStartsNumDot line || lineStartsStep line).map fun line =>
    howToStep (jsTrim (stripStepPrefixes line))
  if steps.length > 0 then steps
  else [howToStep "Follow the instructions"]

/-- A ListItem node. -/
def listItem (position : Nat) (name : String) : Json :=
  Json.obj [("@type", Json.str "ListItem"),
            ("position", Json.num position),
            ("name", Json.str name)]

/-- extractListItems of the assembler: numbered lines longer than ten
characters, positions assigned in order, capped at ten items, with a
one-placeholder fallback. -/
def extractListItems (content : NormalizedContent) : List Json :=
  let lines := splitLines content.content
  let kept := lines.filter fun line =>
    lineStartsNumDot line && line.length > 10
  let items := (List.range kept.length).zipWith
    (fun i line => listItem (i + 1) (jsTrim (stripNumDot line))) kept
  if items.length > 0 then items.take 10
  else [listItem 1 "List item 1"]

/-- Attempt, at the current position, the breadcrumb pattern: the word
home case-insensitively, optional whitespace, a greater-than sign,
optional whitespace, a first segment of non-greater-than characters,
optionally followed by a second such segment. -/
def tryBreadcrumbAt (cs : List Char) : Option (String × Option String) :=
  if matchesCiAt "home".toList cs then
    let r1 := cs.drop 4
    let sp1 := takeSpaces r1
    match sp1.2 with
    | '>' :: r2 =>
        let sp2 := takeSpaces r2
        let cap1 := sp2.2.takeWhile (fun c => c ≠ '>')
        if cap1 = [] then none
        else
          let after1 := sp2.2.drop cap1.length
          match after1 with
          | '>' :: r3 =>
              let sp3 := takeSpaces r3
              let cap2 := sp3.2.takeWhile (fun c => c ≠ '>')
              if cap2 = [] then some (String.mk cap1, none)
              else some (String.mk cap1, some (String.mk cap2))
          | _ => some (String.mk cap1, none)
    | _ => none
  else none

/-- Leftmost match of the breadcrumb regex. -/
def breadcrumbFind : List Char → Option (String × Option String)
  | [] => none
  | c :: rest =>
      match tryBreadcrumbAt (c :: rest) with
      | some m => some m
      | none => breadcrumbFind rest

/-- assembleBreadcrumbs of the assembler: a BreadcrumbList node when the
Home pattern is found in the content text. -/
def assembleBreadcrumbs (content : NormalizedContent) : Option Json :=
  match breadcrumbFind content.content.toList with
  | none => none
  | some (cap1, cap2) =>
      let items := ["Home"] ++ [jsTrim cap1] ++
        (match cap2 with
         | some c2 => [jsTrim c2]
         | none => [])
      some (Json.obj
        [("@type", Json.str "BreadcrumbList"),
         ("@id", Json.str (content.url ++ "#breadcrumbs")),
         ("itemListElement", Json.arr ((List.range items.length).zipWith
           (fun i item => listItem (i + 1) item) items))])

/-! ## Assembler (assembler module of the source) -/

/-- assembleProductProperties of the assembler. -/
def assembleProductProperties (entity : Json) (policyResult : PolicyResult)
    (content : NormalizedContent) : Json :=
  let e1 :=
    if policyResult.features.contains "offers" then
      objSet entity "offers" (Json.obj
        [("@type", Json.str "Offer"),
         ("availability", Json.str "https://schema.org/InStock"),
         ("priceCurrency", Json.str (extractCurrency content)),
         ("price", Json.str (extractPrice content))])
    else entity
  let e2 :=
    if policyResult.features.contains "aggregateRating" then
      objSet e1 "aggregateRating" (Json.obj
        [("@type", Json.str "AggregateRating"),
         ("ratingValue", Json.str (extractRating content)),
         ("ratingCount", Json.str (extractRatingCount content))])
    else e1
  if jsTruthyStr content.meta.ogImage then
    objSet e2 "image" (Json.str (content.meta.ogImage.getD ""))
  else e2

/-- assembleArticleProperties of the assembler. -/
def assembleArticleProperties (entity : Json) (today : String)
    (content : NormalizedContent) (siteUrl : String) : Json :=
  let e1 := objSet entity "isPartOf"
    (Json.obj [("@id", Json.str (siteUrl ++ "/#website"))])
  let e2 :=
    if content.domSignals.hasByline then
      objSet e1 "author" (Json.obj
        [("@type", Json.str "Person"),
         ("name", Json.str (extractAuthor content))])
    else e1
  let e3 :=
    if content.domSignals.hasPublishDate then
      objSet e2 "datePublished" (Json.str (extractPublishDate today content))
    else e2
  let e4 :=
    if jsTruthyStr content.meta.ogImage then
      objSet e3 "image" (Json.str (content.meta.ogImage.getD ""))
    else e3
  objSet e4 "publisher"
    (Json.obj [("@id", Json.str (siteUrl ++ "/#organization"))])

/-- assembleLocalBusinessProperties of the assembler. -/
def assembleLocalBusinessProperties (entity : Json)
    (content : NormalizedContent) : Json :=
  let e1 :=
    match extractAddress content with
    | some address => objSet entity "address" address
    | none => entity
  let e2 :=
    match extractPhone content with
    | some phone => objSet e1 "telephone" (Json.str phone)
    | none => e1
  if content.domSignals.hasHours then
    objSet e2 "openingHours"
      (Json.arr ((extractOpeningHours content).map Json.str))
  else e2

/-- assembleEventProperties of the assembler: startDate and location are
always populated. -/
def assembleEventProperties (entity : Json) (today : String)
    (content : NormalizedContent) : Json :=
  let e1 := objSet entity "startDate"
    (Json.str (extractEventDate today content))
  objSet e1 "location" (extractEventLocation content)

/-- assembleRecipeProperties of the assembler. -/
def assembleRecipeProperties (entity : Json)
    (content : NormalizedContent) : Json :=
  let e1 := objSet entity "recipeIngredient"
    (Json.arr ((extractIngredients content).map Json.str))
  let e2 := objSet e1 "recipeInstructions"
    (Json.arr (extractRecipeInstructions content))
  match extractCookTime content with
  | some t => objSet e2 "cookTime" (Json.str t)
  | none => e2

/-- assembleHowToProperties of the assembler. -/
def assembleHowToProperties (entity : Json)
    (content : NormalizedContent) : Json :=
  objSet entity "step" (Json.arr (extractHowToSteps content))

/-- assembleItemListProperties of the assembler. -/
def assembleItemListProperties (entity : Json)
    (content : NormalizedContent) : Json :=
  let items := extractListItems content
  let e1 := objSet entity "itemListElement" (Json.arr items)
  objSet e1 "numberOfItems" (Json.num items.length)

/-- assembleWebPageProperties of the assembler (the default branch). -/
def assembleWebPageProperties (entity : Json)
    (content : NormalizedContent) (siteUrl : String) : Json :=
  let e1 := objSet entity "isPartOf"
    (Json.obj [("@id", Json.str (siteUrl ++ "/#website"))])
  if jsTruthyStr content.meta.ogImage then
    objSet e1 "image" (Json.str (content.meta.ogImage.getD ""))
  else e1

/-- assemblePrimaryEntity of the assembler: the base entity carries the
subtype-or-primary type, the page id, name, url and optional description,
then the type dispatch table populates type-specific properties.  The
result is defined only when the page URL parses. -/
def assemblePrimaryEntity (today : String) (policyResult : PolicyResult)
    (content : NormalizedContent) : Option Json :=
  match parseURL (jsOrStr content.canonicalUrl content.url) with
  | none => none
  | some baseUrl =>
      let siteUrl := baseUrl.protocol ++ "//" ++ baseUrl.host
      let entity0 := Json.obj
        [("@type", Json.str (jsOrStr policyResult.subtype
            policyResult.primaryType)),
         ("@id", Json.str (content.url ++ "#" ++
            jsToLower policyResult.primaryType)),
         ("name", Json.str content.title),
         ("url", Json.str content.url)]
      let entity1 :=
        if jsTruthyStr content.description then
          objSet entity0 "description"
            (Json.str (content.description.getD ""))
        else entity0
      if policyResult.primaryType = "Product" then
        some (assembleProductProperties entity1 policyResult content)
      else if policyResult.primaryType = "Article" ||
          policyResult.primaryType = "BlogPosting" then
        some (assembleArticleProperties entity1 today content siteUrl)
      else if policyResult.primaryType = "LocalBusiness" then
        some (assembleLocalBusinessProperties entity1 content)
      else if policyResult.primaryType = "Event" then
        some (assembleEventProperties entity1 today content)
      else if policyResult.primaryType = "Recipe" then
        some (assembleRecipeProperties entity1 content)
      else if policyResult.primaryType = "HowTo" then
        some (assembleHowToProperties entity1 content)
      else if policyResult.primaryType = "ItemList" then
        some (assembleItemListProperties entity1 content)
      else
        some (assembleWebPageProperties entity1 content siteUrl)

/-- assembleSchema of the assembler: Organization and WebSite nodes,
an optional BreadcrumbList node, and the primary entity; mentions from
the policy result are attached to the primary entity (the source
mutates the entity after pushing it, which produces the same graph).
The result is defined only when the page URL parses. -/
def assembleSchema (today : String) (policyResult : PolicyResult)
    (content : NormalizedContent) : Option Json :=
  match parseURL (jsOrStr content.canonicalUrl content.url) with
  | none => none
  | some baseUrl =>
      let siteUrl := baseUrl.protocol ++ "//" ++ baseUrl.host
      match extractOrganizationName content with
      | none => none
      | some orgName =>
          match extractSiteName content with
          | none => none
          | some siteName =>
              let organization := Json.obj
                [("@type", Json.str "Organization"),
                 ("@id", Json.str (siteUrl ++ "/#organization")),
                 ("name", Json.str orgName),
                 ("url", Json.str siteUrl)]
              let website := Json.obj
                [("@type", Json.str "WebSite"),
                 ("@id", Json.str (siteUrl ++ "/#website")),
                 ("url", Json.str siteUrl),
                 ("name", Json.str siteName),
                 ("publisher", Json.obj
                   [("@id", Json.str (siteUrl ++ "/#organization"))])]
              let breadcrumbNodes :=
                if policyResult.features.contains "breadcrumbs" then
                  match assembleBreadcrumbs content with
                  | some b => [b]
                  | none => []
                else []
              match assemblePrimaryEntity today policyResult content with
              | none => none
              | some primaryEntity =>
                  let primaryEntity2 :=
                    if policyResult.mentions.length > 0 then
                      objSet primaryEntity "mentions"
                        (Json.arr (policyResult.mentions.map fun mention =>
                          Json.obj [("@type", Json.str mention),
                                    ("name", Json.str content.title)]))
                    else primaryEntity
                  some (Json.obj
                    [("@context", Json.str "https://schema.org"),
                     ("@graph", Json.arr ([organization, website] ++
                       breadcrumbNodes ++ [primaryEntity2]))])

/-! ## Validator (backend/core/validator.ts of the source) -/

/-- ValidationResult of the validator. -/
structure ValidationResult where
  schemaOrgValid : Bool
  richResultsEligible : Bool
  errors : List String
  warnings : List String
deriving Repr, DecidableEq

/-- isValidUrl of the validator: the URL constructor succeeds.  The
assembled documents only carry string URL values; a non-string value
coerces to a text that the constructor rejects. -/
def jsIsValidUrl : Json → Bool
  | Json.str s => (parseURL s).isSome
  | _ => false

/-- validateProduct of the validator: errors then warnings. -/
def validateProduct (entity : Json) : List String × List String :=
  ((if !jsTruthyO (jsGet entity "name") then
      ["Product missing required name"] else []) ++
   (match jsGet entity "offers" with
    | some offers =>
        if jsTruthy offers then
          (if !jsTruthyO (jsGet offers "price") then
            ["Product offer missing price"] else []) ++
          (if !jsTruthyO (jsGet offers "priceCurrency") then
            ["Product offer missing priceCurrency"] else [])
        else []
    | none => []),
   (if !jsTruthyO (jsGet entity "image") then
      ["Product missing image - recommended for rich results"] else []) ++
   (match jsGet entity "aggregateRating" with
    | some ar =>
        if jsTruthy ar && !jsTruthyO (jsGet ar "ratingCount") then
          ["AggregateRating missing ratingCount"] else []
    | none => []))

/-- validateArticle of the validator. -/
def validateArticle (entity : Json) : List String × List String :=
  ((if !jsTruthyO (jsGet entity "name") &&
       !jsTruthyO (jsGet entity "headline") then
      ["Article missing required name or headline"] else []),
   (if !jsTruthyO (jsGet entity "author") then
      ["Article missing author - recommended for rich results"] else []) ++
   (if !jsTruthyO (jsGet entity "datePublished") then
      ["Article missing datePublished - recommended for rich results"]
    else []) ++
   (if !jsTruthyO (jsGet entity "image") then
      ["Article missing image - recommended for rich results"] else []) ++
   (if !jsTruthyO (jsGet entity "publisher") then
      ["Article missing publisher - recommended for rich results"] else []))

/-- validateLocalBusiness of the validator. -/
def validateLocalBusiness (entity : Json) : List String × List String :=
  ((if !jsTruthyO (jsGet entity "name") then
      ["LocalBusiness missing required name"] else []) ++
   (if !jsTruthyO (jsGet entity "address") then
      ["LocalBusiness missing required address"] else []),
   (if !jsTruthyO (jsGet entity "telephone") then
      ["LocalBusiness missing telephone - recommended for rich results"]
    else []) ++
   (if !jsTruthyO (jsGet entity "openingHours") then
      ["LocalBusiness missing openingHours - recommended for rich results"]
    else []))

/-- validateEvent of the validator: name, startDate and location are
required. -/
def validateEvent (entity : Json) : List String × List String :=
  ((if !jsTruthyO (jsGet entity "name") then
      ["Event missing required name"] else []) ++
   (if !jsTruthyO (jsGet entity "startDate") then
      ["Event missing required startDate"] else []) ++
   (if !jsTruthyO (jsGet entity "location") then
      ["Event missing required location"] else []),
   [])

/-- A JSON value that is an array (Array.isArray). -/
def jsIsArray : Json → Bool
  | Json.arr _ => true
  | _ => false

/-- A JSON value that is an array, as an optional check on a property. -/
def jsIsArrayO : Option Json → Bool
  | some v => jsIsArray v
  | none => false

/-- validateRecipe of the validator. -/
def validateRecipe (entity : Json) : List String × List String :=
  ((if !jsTruthyO (jsGet entity "name") then
      ["Recipe missing required name"] else []) ++
   (if !jsTruthyO (jsGet entity "recipeIngredient") ||
       !jsIsArrayO (jsGet entity "recipeIngredient") then
      ["Recipe missing required recipeIngredient array"] else []) ++
   (if !jsTruthyO (jsGet entity "recipeInstructions") ||
       !jsIsArrayO (jsGet entity "recipeInstructions") then
      ["Recipe missing required recipeInstructions array"] else []),
   (if !jsTruthyO (jsGet entity "image") then
      ["Recipe missing image - recommended for rich results"] else []))

/-- validateOrganization of the validator. -/
def validateOrganization (entity : Json) : List String × List String :=
  ((if !jsTruthyO (jsGet entity "name") then
      ["Organization missing required name"] else []),
   (if !jsTruthyO (jsGet entity "url") then
      ["Organization missing URL - recommended"] else []))

/-- validateWebSite of the validator. -/
def validateWebSite (entity : Json) : List String × List String :=
  ((if !jsTruthyO (jsGet entity "url") then
      ["WebSite missing required url"] else []),
   (if !jsTruthyO (jsGet entity "name") then
      ["WebSite missing name - recommended"] else []))

/-- validateEntity of the validator: a falsy at-type is a blocking error
that skips the remaining checks; otherwise the type-specific table runs
followed by the common URL-valued field checks. -/
def validateEntity (entity : Json) : List String × List String :=
  if !jsTruthyO (jsGet entity "@type") then (["Entity missing @type"], [])
  else
    let typed :=
      match jsGet entity "@type" with
      | some (Json.str s) =>
          if s = "Product" then validateProduct entity
          else if s = "Article" || s = "BlogPosting" then
            validateArticle entity
          else if s = "LocalBusiness" then validateLocalBusiness entity
          else if s = "Event" then validateEvent entity
          else if s = "Recipe" then validateRecipe entity
          else if s = "Organization" then validateOrganization entity
          else if s = "WebSite" then validateWebSite entity
          else ([], [])
      | _ => ([], [])
    let commonUrl :=
      match jsGet entity "url" with
      | some u =>
          if jsTruthy u && !jsIsValidUrl u then
            ["Invalid URL: " ++ jsDisplay u] else []
      | none => []
    let commonImage :=
      match jsGet entity "image" with
      | some im =>
          if jsTruthy im && !jsIsValidUrl im then
            ["Invalid image URL: " ++ jsDisplay im] else []
      | none => []
    (typed.1 ++ commonUrl ++ commonImage, typed.2)

/-- The primary-entity search of checkRichResultsEligibility: the first
graph entity whose truthy at-type is not Organization, WebSite or
BreadcrumbList. -/
def findPrimaryEntity (graph : List Json) : Option Json :=
  graph.find? fun entity =>
    jsTruthyO (jsGet entity "@type") &&
    !(match jsGet entity "@type" with
      | some (Json.str s) =>
          s = "Organization" || s = "WebSite" || s = "BreadcrumbList"
      | _ => false)

/-- checkRichResultsEligibility of the validator: zero blocking errors, a
primary entity present, and the type-specific minimal-field check. -/
def checkRichResultsEligibility (jsonld : Json) (errors : List String) :
    Bool :=
  if errors.length > 0 then false
  else
    let graph :=
      match jsGet jsonld "@graph" with
      | some (Json.arr es) => es
      | _ => []
    match findPrimaryEntity graph with
    | none => false
    | some primaryEntity =>
        match jsGet primaryEntity "@type" with
        | some (Json.str s) =>
            if s = "Product" then
              jsTruthyO (jsGet primaryEntity "name") &&
              jsTruthyO (jsGet primaryEntity "image") &&
              jsTruthyO (jsGet primaryEntity "offers")
            else if s = "Article" || s = "BlogPosting" then
              jsTruthyO (jsGet primaryEntity "name") &&
              jsTruthyO (jsGet primaryEntity "image") &&
              jsTruthyO (jsGet primaryEntity "author") &&
              jsTruthyO (jsGet primaryEntity "datePublished")
            else if s = "LocalBusiness" then
              jsTruthyO (jsGet primaryEntity "name") &&
              jsTruthyO (jsGet primaryEntity "address")
            else if s = "Event" then
              jsTruthyO (jsGet primaryEntity "name") &&
              jsTruthyO (jsGet primaryEntity "startDate") &&
              jsTruthyO (jsGet primaryEntity "location")
            else if s = "Recipe" then
              jsTruthyO (jsGet primaryEntity "name") &&
              jsTruthyO (jsGet primaryEntity "image") &&
              jsTruthyO (jsGet primaryEntity "recipeIngredient") &&
              jsTruthyO (jsGet primaryEntity "recipeInstructions")
            else true
        | _ => true

/-- validateSchema of the validator: context and graph structure checks,
per-entity validation, then rich-results eligibility.  The assembled
documents always carry an array graph; on a truthy non-array graph the
source would throw while iterating, a case no claim exercises. -/
def validateSchema (jsonld : Json) : ValidationResult :=
  let e0 :=
    (if !jsTruthyO (jsGet jsonld "@context") then ["Missing @context"]
     else []) ++
    (if !jsTruthyO (jsGet jsonld "@graph") ||
        !jsIsArrayO (jsGet jsonld "@graph") then
      ["Missing or invalid @graph"] else [])
  let graph :=
    match jsGet jsonld "@graph" with
    | some (Json.arr es) => es
    | _ => []
  let perEntity := graph.map validateEntity
  let errors := e0 ++ (perEntity.map Prod.fst).flatten
  let warnings := (perEntity.map Prod.snd).flatten
  let richResultsEligible := checkRichResultsEligibility jsonld errors
  { schemaOrgValid := errors.length = 0,
    richResultsEligible := richResultsEligible,
    errors := errors, warnings := warnings }

/-! ## Concrete fixtures used by witnesses and counterexamples -/

/-- A domSignals record with every signal off. -/
def sigFF : DomSignals :=
  { hasPrice := false, hasCurrency := false, hasAddToCart := false,
    hasSku := false, hasRating := false, hasReviews := false,
    hasNAP := false, hasHours := false, hasMap := false, hasEvent := false,
    hasRecipe := false, hasSteps := false, hasByline := false,
    hasPublishDate := false, hasBreadcrumbs := false, hasFAQ := false,
    hasVideo := false, hasItemList := false }

/-- A domSignals record with the product signals on. -/
def sigProd : DomSignals :=
  { sigFF with hasPrice := true, hasCurrency := true, hasAddToCart := true }

/-- The empty hint directive. -/
def hintEmpty : HintDirective := {}

/-- A product-like page for the C1 witness. -/
def c1Content : NormalizedContent :=
  { url := "https://shop.example/p", title := "P", content := "",
    domSignals := sigProd }

/-- A product classification for the C2 witness. -/
def c2Cl : Classification :=
  { primaryType := "Product", confidence := 0.9, features := [],
    signals := [] }

/-- A priceless page for the C2 witness. -/
def c2Content : NormalizedContent :=
  { url := "https://x.example/", title := "t", content := "",
    domSignals := sigFF }

/-- A plain classification for the C3 counterexample and witness. -/
def c3Cl : Classification :=
  { primaryType := "WebPage", confidence := 0.5, features := [],
    signals := [] }

/-- A page without price or currency for the C3 counterexample. -/
def c3Content : NormalizedContent :=
  { url := "https://x.example/", title := "t", content := "",
    domSignals := sigFF }

/-- A hint that both suppresses and enriches offers under strict
strictness: the strict re-validation drops the re-added feature. -/
def c3Hint : HintDirective :=
  { suppress := some ["offers"], enrich := some ["offers"],
    strictness := some "strict" }

/-- The same overlap without strict strictness, for the amended claim
witness. -/
def c3HintLenient : HintDirective :=
  { suppress := some ["offers"], enrich := some ["offers"] }

/-- A page carrying existing JSON-LD with a string type whose cascade
lands in the plain-Article branch, for the C4 counterexample. -/
def c4Content : NormalizedContent :=
  { url := "https://e.example/x", title := "t", content := "",
    existingJsonLd := [Json.obj [("@type", Json.str "Article")]],
    domSignals := { sigFF with hasByline := true, hasPublishDate := true } }

/-- A product page carrying existing JSON-LD, for the C4 amended
witness. -/
def c4ContentW : NormalizedContent :=
  { url := "https://e.example/x", title := "t", content := "",
    existingJsonLd := [Json.obj [("@type", Json.str "Product")]],
    domSignals := sigProd }

/-- A page for the C9 witness whose cascade lands in the Product
branch. -/
def c9Content : NormalizedContent :=
  { url := "https://shop.example/q", title := "Q", content := "",
    domSignals := sigProd }

/-- A page for the C10 witness with the offers feature detected. -/
def c10Content : NormalizedContent :=
  { url := "https://shop.example/r", title := "R", content := "",
    domSignals := { sigFF with hasPrice := true, hasCurrency := true } }

/-- A Product classification whose signals mention both Product and
Article, for the C6 counterexample. -/
def c6xCl : Classification :=
  { primaryType := "Product", confidence := 0.9, features := [],
    signals := ["Hint: Product", "Existing JSON-LD: Article"] }

/-- A priced page for the C6 counterexample (no downgrade). -/
def c6xContent : NormalizedContent :=
  { url := "https://shop.example/p", title := "P", content := "",
    domSignals := sigProd }

/-- A WebPage classification whose signals mention both Product and
Article, for the C6 amended witness. -/
def c6wCl : Classification :=
  { primaryType := "WebPage", confidence := 0.5, features := [],
    signals := ["Existing JSON-LD: Product", "Hint: Article"] }

/-- A plain page for the C6 amended witness. -/
def c6wContent : NormalizedContent :=
  { url := "https://w.example/a", title := "A", content := "",
    domSignals := sigFF }

/-- An Event policy result for the C7 witness. -/
def c7wPr : PolicyResult :=
  { primaryType := "Event", features := [], confidence := 0.8 }

/-- An event page without a date in its text, for the C7 witness. -/
def c7wContent : NormalizedContent :=
  { url := "https://example.com/e", title := "Evt",
    content := "no date here", domSignals := sigFF }

/-- A WebPage policy result with no subtype, features or mentions, for
the C8 claims. -/
def c8Pr : PolicyResult :=
  { primaryType := "WebPage", features := [], confidence := 0.5 }

/-- A page whose host is exactly www. so that the derived organization
name is empty, for the C8 counterexample. -/
def c8xContent : NormalizedContent :=
  { url := "https://www./x", title := "", content := "",
    domSignals := sigFF }

/-- An ordinary page for the C8 amended witness. -/
def c8wContent : NormalizedContent :=
  { url := "https://example.com/page", title := "Hello", content := "",
    domSignals := sigFF }

/-! ## General lemmas -/

/-- Lookup after a field update: the updated key reads the new value,
every other key is unchanged. -/
theorem lookupField_setField (fs : List (String × Json)) (k k' : String)
    (v : Json) :
    lookupField (setField fs k v) k' =
      if k' = k then some v else lookupField fs k' := by
  induction fs with
  | nil =>
      simp only [setField, lookupField]
      split_ifs <;> first | rfl | (exfalso; subst_vars; simp_all)
  | cons head tail ih =>
      obtain ⟨k0, v0⟩ := head
      by_cases h0 : k0 = k
      · subst h0
        simp only [setField, if_pos rfl, lookupField]
        split_ifs <;> first | rfl | (exfalso; subst_vars; simp_all)
      · simp only [setField, if_neg h0, lookupField, ih]
        split_ifs <;> first | rfl | (exfalso; subst_vars; simp_all)

/-- Reading an untouched key through a field update on an object. -/
theorem jsGet_objSet_ne (o : Json) (k k' : String) (v : Json)
    (h : k' ≠ k) : jsGet (objSet o k v) k' = jsGet o k' := by
  cases o <;> simp [objSet, jsGet, lookupField_setField, h]

/-- Reading the updated key through a field update on an object. -/
theorem jsGet_objSet_self (fs : List (String × Json)) (k : String)
    (v : Json) : jsGet (objSet (Json.obj fs) k v) k = some v := by
  simp [objSet, jsGet, lookupField_setField]

/-- The primary type returned by applyPolicy as a function of the two
downgrade gates. -/
theorem applyPolicy_primaryType_eq (cl : Classification)
    (content : NormalizedContent) (hint : HintDirective) :
    (applyPolicy cl content hint).primaryType =
      (if cl.primaryType = "Product" && !content.domSignals.hasPrice then
        "WebPage"
       else if cl.primaryType = "LocalBusiness" &&
          !content.domSignals.hasNAP then "WebPage"
       else cl.primaryType) := by
  simp only [applyPolicy, applyQualityGates]
  split_ifs <;> simp_all

/-- A cascade classification of Product carries a price signal, and one
of LocalBusiness carries a NAP signal. -/
theorem cascade_gate_safety (content : NormalizedContent) (conf0 : ℚ)
    (sig0 : List String) :
    ((classifyCascade content conf0 sig0).primaryType = "Product" →
      content.domSignals.hasPrice = true) ∧
    ((classifyCascade content conf0 sig0).primaryType = "LocalBusiness" →
      content.domSignals.hasNAP = true) := by
  unfold classifyCascade
  split_ifs <;> constructor <;> intro hp <;>
    simp_all [isProduct, isLocalBusiness]

/-- Under a falsy hint preferredType the classifier runs the cascade. -/
theorem classifyPage_cascade (content : NormalizedContent)
    (hint : HintDirective)
    (hNo : jsTruthyStr hint.preferredType = false) :
    classifyPage content hint =
      classifyCascade content (existingConf content) (existingSig content) := by
  rcases h : hint.preferredType with _ | t'
  · simp [classifyPage, h]
  · have ht' : t' = "" := by
      simp [jsTruthyStr, h] at hNo
      exact hNo
    simp [classifyPage, h, ht']

/-- The classifier feature list is always the detected feature list. -/
theorem classifyPage_features_eq (content : NormalizedContent)
    (hint : HintDirective) :
    (classifyPage content hint).features = detectFeatures content := by
  unfold classifyPage classifyCascade
  rcases hint.preferredType with _ | t' <;> simp <;> split_ifs <;> rfl

/-- The detected feature list is a subsequence of the fixed feature
order. -/
theorem detectFeatures_sublist (content : NormalizedContent) :
    (detectFeatures content).Sublist
      ["offers", "aggregateRating", "reviews", "breadcrumbs", "faq",
       "video"] := by
  unfold detectFeatures
  split_ifs <;> decide

/-- Every feature hinted for enrichment, and every feature already
present, appears after the enrichment loop. -/
theorem mem_enrichFeatures_fst (f : String) :
    ∀ (enr fs es : List String), (f ∈ fs ∨ f ∈ enr) →
      f ∈ (enrichFeatures fs es enr).1 := by
  intro enr
  induction enr with
  | nil =>
      intro fs es h
      simp only [enrichFeatures]
      rcases h with h | h
      · exact h
      · simp at h
  | cons g rest ih =>
      intro fs es h
      by_cases hg : fs.contains g
      · simp only [enrichFeatures, hg, if_pos]
        apply ih
        rcases h with h | h
        · exact Or.inl h
        · rcases List.mem_cons.mp h with rfl | h
          · exact Or.inl (by simpa using hg)
          · exact Or.inr h
      · simp only [enrichFeatures, hg, if_neg]
        apply ih
        rcases h with h | h
        · exact Or.inl (List.mem_append_left _ h)
        · rcases List.mem_cons.mp h with rfl | h
          · exact Or.inl (List.mem_append_right _ (List.mem_singleton.mpr rfl))
          · exact Or.inr h

/-- Every feature surviving the enrichment loop was present before it or
was hinted for enrichment. -/
theorem enrich_subset (f : String) :
    ∀ (enr fs es : List String), f ∈ (enrichFeatures fs es enr).1 →
      f ∈ fs ∨ f ∈ enr := by
  intro enr
  induction enr with
  | nil => intro fs es h; exact Or.inl h
  | cons g rest ih =>
      intro fs es h
      by_cases hg : fs.contains g
      · simp only [enrichFeatures, hg, if_pos] at h
        rcases ih _ _ h with h' | h'
        · exact Or.inl h'
        · exact Or.inr (List.mem_cons_of_mem _ h')
      · simp only [enrichFeatures, hg, if_neg] at h
        rcases ih _ _ h with h' | h'
        · rcases List.mem_append.mp h' with h'' | h''
          · exact Or.inl h''
          · simp at h''
            subst h''
            exact Or.inr (List.mem_cons_self _ _)
        · exact Or.inr (List.mem_cons_of_mem _ h')

/-- Strict validation only keeps features that were in its input. -/
theorem strict_subset (content : NormalizedContent) :
    ∀ (fs : List String) (f : String),
      f ∈ (applyStrictValidation fs content).1 → f ∈ fs := by
  intro fs
  induction fs with
  | nil => intro f h; simp [applyStrictValidation] at h
  | cons g rest ih =>
      intro f h
      unfold applyStrictValidation at h
      split_ifs at h <;> simp at h <;>
        first
          | (rcases h with rfl | h
             · exact List.mem_cons_self _ _
             · exact List.mem_cons_of_mem _ (ih f h))
          | exact List.mem_cons_of_mem _ (ih f h)

/-- Every feature in the policy output was classified or was hinted for
enrichment. -/
theorem applyPolicy_features_provenance (cl : Classification)
    (content : NormalizedContent) (hint : HintDirective) :
    ∀ f ∈ (applyPolicy cl content hint).features,
      f ∈ cl.features ∨ ∃ enr, hint.enrich = some enr ∧ f ∈ enr := by
  intro f hf
  have hbase : ∀ g : String,
      g ∈ (match hint.suppress with
           | some sup => cl.features.filter (fun x => !sup.contains x)
           | none => cl.features) → g ∈ cl.features := by
    intro g hg
    rcases hs : hint.suppress with _ | sup
    · rw [hs] at hg
      exact hg
    · rw [hs] at hg
      exact List.mem_of_mem_filter hg
  have henr : ∀ g : String,
      g ∈ (match hint.enrich with
           | some enr =>
               enrichFeatures (match hint.suppress with
                 | some sup => cl.features.filter (fun x => !sup.contains x)
                 | none => cl.features) [] enr
           | none => ((match hint.suppress with
                 | some sup => cl.features.filter (fun x => !sup.contains x)
                 | none => cl.features), ([] : List String))).1 →
        g ∈ cl.features ∨ ∃ enr, hint.enrich = some enr ∧ g ∈ enr := by
    intro g hg
    rcases he : hint.enrich with _ | enr
    · rw [he] at hg
      exact Or.inl (hbase g hg)
    · rw [he] at hg
      rcases enrich_subset g enr _ _ hg with h' | h'
      · exact Or.inl (hbase g h')
      · exact Or.inr ⟨enr, rfl, h'⟩
  simp only [applyPolicy] at hf
  by_cases hst : hint.strictness = some "strict"
  · rw [if_pos hst] at hf
    exact henr f (strict_subset content _ f hf)
  · rw [if_neg hst] at hf
    exact henr f hf

/-! ## Claim theorems -/

/-- C1: for every NormalizedContent with hasPrice, hasCurrency and
hasAddToCart set, a hint with no (usable) preferredType classifies the
page as Product with confidence at least 0.9, and a hint with a non-empty
preferredType makes that type the primary type without consulting the
cascade.  An empty-string preferredType is falsy in the guard of the
source and therefore counts as absent. -/
theorem c1_product_classification (content : NormalizedContent)
    (hint : HintDirective)
    (hp : content.domSignals.hasPrice = true)
    (hc : content.domSignals.hasCurrency = true)
    (ha : content.domSignals.hasAddToCart = true) :
    (jsTruthyStr hint.preferredType = false →
      (classifyPage content hint).primaryType = "Product" ∧
      (0.9 : ℚ) ≤ (classifyPage content hint).confidence) ∧
    (∀ t, hint.preferredType = some t → t ≠ "" →
      (classifyPage content hint).primaryType = t) := by
  constructor
  · intro hnone
    rw [classifyPage_cascade content hint hnone]
    simp [classifyCascade, isProduct, hp, hc, ha]
  · intro t ht hne
    simp [classifyPage, ht, hne]

/-- C1 witness: a concrete product page classifies as Product without a
hint and as Recipe under a Recipe hint. -/
theorem c1_product_classification_witness :
    (classifyPage c1Content hintEmpty).primaryType = "Product" ∧
    (classifyPage c1Content { preferredType := some "Recipe" }).primaryType =
      "Recipe" :=
  ⟨((c1_product_classification c1Content hintEmpty rfl rfl rfl).1 rfl).1,
   (c1_product_classification c1Content { preferredType := some "Recipe" }
     rfl rfl rfl).2 "Recipe" rfl (by decide)⟩

/-- C2: every Product classification on a page without a price signal is
downgraded by the policy engine to WebPage with confidence at most 0.6
and a warning mentioning price. -/
theorem c2_priceless_product_downgraded (cl : Classification)
    (content : NormalizedContent) (hint : HintDirective)
    (hP : cl.primaryType = "Product")
    (hp : content.domSignals.hasPrice = false) :
    (applyPolicy cl content hint).primaryType = "WebPage" ∧
    (applyPolicy cl content hint).confidence ≤ 0.6 ∧
    ∃ w ∈ (applyPolicy cl content hint).warnings,
      jsIncludes w "price" = true := by
  refine ⟨?_, ?_, ?_⟩
  · simp [applyPolicy, applyQualityGates, hP, hp]
  · simp [applyPolicy, applyQualityGates, hP, hp]
  · refine ⟨"Product requires visible price", ?_, by decide⟩
    simp [applyPolicy, applyQualityGates, hP, hp]

/-- C2 witness: the downgrade on a concrete priceless product page. -/
theorem c2_priceless_product_downgraded_witness :
    (applyPolicy c2Cl c2Content hintEmpty).primaryType = "WebPage" ∧
    (applyPolicy c2Cl c2Content hintEmpty).confidence ≤ 0.6 ∧
    ∃ w ∈ (applyPolicy c2Cl c2Content hintEmpty).warnings,
      jsIncludes w "price" = true :=
  c2_priceless_product_downgraded c2Cl c2Content hintEmpty rfl rfl

/-- C3 counterexample: with strictness strict, a feature named in both
suppress and enrich is dropped again by strict validation, so the claim
that the returned feature list always contains it is false. -/
theorem c3_counterexample :
    c3Hint.suppress = some ["offers"] ∧ c3Hint.enrich = some ["offers"] ∧
    "offers" ∉ (applyPolicy c3Cl c3Content c3Hint).features :=
  ⟨rfl, rfl, by decide⟩

/-- C3 amended: when strictness is not strict, enrichment runs after
suppression and unconditionally re-adds the feature, so a feature named
in both suppress and enrich is in the returned feature list. -/
theorem c3_amended_enrich_wins (cl : Classification)
    (content : NormalizedContent) (hint : HintDirective) (f : String)
    (sup enr : List String)
    (hs : hint.suppress = some sup) (_hfs : f ∈ sup)
    (he : hint.enrich = some enr) (hfe : f ∈ enr)
    (hstrict : hint.strictness ≠ some "strict") :
    f ∈ (applyPolicy cl content hint).features := by
  simp only [applyPolicy, hs, he, if_neg hstrict]
  exact mem_enrichFeatures_fst f enr _ [] (Or.inr hfe)

/-- C3 amended witness: the overlap feature survives under the default
strictness. -/
theorem c3_amended_enrich_wins_witness :
    "offers" ∈ (applyPolicy c3Cl c3Content c3HintLenient).features :=
  c3_amended_enrich_wins c3Cl c3Content c3HintLenient "offers"
    ["offers"] ["offers"] rfl (by decide) rfl (by decide) (by decide)

/-- C4 counterexample: a page with existing JSON-LD carrying the string
type Article, whose cascade lands in the plain-Article branch, ends with
confidence 0.75, strictly below the claimed 0.8 floor. -/
theorem c4_counterexample :
    c4Content.existingJsonLd = [Json.obj [("@type", Json.str "Article")]] ∧
    jsGet (Json.obj [("@type", Json.str "Article")]) "@type" =
      some (Json.str "Article") ∧
    (classifyPage c4Content hintEmpty).confidence = 0.75 ∧
    (classifyPage c4Content hintEmpty).confidence < 0.8 := by
  have h : (classifyPage c4Content hintEmpty).confidence = 0.75 := by
    rw [classifyPage_cascade c4Content hintEmpty rfl]
    simp +decide [classifyCascade]
  exact ⟨rfl, rfl, h, by rw [h]; norm_num⟩

/-- C4 amended: with existing JSON-LD carrying a truthy string type, the
classifier confidence is at least 0.8 in every branch except the
plain-Article cascade branch, which overwrites it to 0.75. -/
theorem c4_amended_confidence (content : NormalizedContent)
    (hint : HintDirective) (e : Json) (es : List Json) (t : String)
    (hE : content.existingJsonLd = e :: es)
    (hT : jsGet e "@type" = some (Json.str t)) (hne : t ≠ "") :
    (0.8 : ℚ) ≤ (classifyPage content hint).confidence ∨
    ((classifyPage content hint).primaryType = "Article" ∧
     (classifyPage content hint).confidence = 0.75) := by
  have hconf : existingConf content = 0.8 := by
    simp [existingConf, hE, hT, hne]
    norm_num
  have hcas : ∀ sig0,
      (0.8 : ℚ) ≤ (classifyCascade content 0.8 sig0).confidence ∨
      ((classifyCascade content 0.8 sig0).primaryType = "Article" ∧
       (classifyCascade content 0.8 sig0).confidence = 0.75) := by
    intro sig0
    unfold classifyCascade
    split_ifs <;>
      first
        | (left; norm_num; done)
        | (right; exact ⟨rfl, rfl⟩)
  rcases hpt : hint.preferredType with _ | t'
  · have := hcas (existingSig content)
    simpa [classifyPage, hpt, hconf] using this
  · by_cases ht' : t' = ""
    · have := hcas (existingSig content)
      simpa [classifyPage, hpt, ht', hconf] using this
    · left
      simp only [classifyPage, hpt, hconf]
      rw [if_pos ht']
      exact le_max_left _ _

/-- C4 amended witness: a concrete product page with existing JSON-LD
satisfies the amended bound. -/
theorem c4_amended_confidence_witness :
    (0.8 : ℚ) ≤ (classifyPage c4ContentW hintEmpty).confidence ∨
    ((classifyPage c4ContentW hintEmpty).primaryType = "Article" ∧
     (classifyPage c4ContentW hintEmpty).confidence = 0.75) :=
  c4_amended_confidence c4ContentW hintEmpty
    (Json.obj [("@type", Json.str "Product")]) [] "Product" rfl rfl
    (by decide)

/-- C5: the hint text is lower-cased before matching, so the BCP-47
pattern, which requires two uppercase letters, never fires; on a hint
containing both a standalone two-letter code and a BCP-47 tag the parsed
language is the two-letter code, not the BCP-47 tag.  The raw hint does
contain a BCP-47 match, as the first conjunct shows. -/
theorem c5_bcp47_never_matches :
    bcpFind none "en de-DE".toList = some "de-DE" ∧
    langFind none (jsToLower "en de-DE").toList = some "en" ∧
    bcpFind none (jsToLower "en de-DE").toList = none ∧
    (parseHint "en de-DE").language = some "en" :=
  ⟨by decide, by decide, by decide, by decide⟩

/-- C9: with a falsy hint preferredType, the policy engine never changes
the primary type produced by the classifier: both downgrade gates are
unreachable for cascade classifications. -/
theorem c9_policy_preserves_primary_type (content : NormalizedContent)
    (hint : HintDirective)
    (hNo : jsTruthyStr hint.preferredType = false) :
    (applyPolicy (classifyPage content hint) content hint).primaryType =
      (classifyPage content hint).primaryType := by
  rw [applyPolicy_primaryType_eq]
  rw [classifyPage_cascade content hint hNo]
  obtain ⟨hprod, hnap⟩ :=
    cascade_gate_safety content (existingConf content) (existingSig content)
  by_cases h1 :
      (classifyCascade content (existingConf content)
        (existingSig content)).primaryType = "Product"
  · simp [h1, hprod h1]
  · by_cases h2 :
        (classifyCascade content (existingConf content)
          (existingSig content)).primaryType = "LocalBusiness"
    · simp [h1, h2, hnap h2]
    · simp [h1, h2]

/-- C9 witness: the policy engine keeps the Product type of a concrete
hint-free product classification. -/
theorem c9_policy_preserves_primary_type_witness :
    (applyPolicy (classifyPage c9Content hintEmpty) c9Content
      hintEmpty).primaryType = (classifyPage c9Content hintEmpty).primaryType :=
  c9_policy_preserves_primary_type c9Content hintEmpty rfl

/-- C10: the classifier feature list is a duplicate-free subsequence of
the fixed feature order, and every feature of the policy output comes
from the classifier or from hint enrichment, so the remaining vocabulary
names can only enter the pipeline through enrichment. -/
theorem c10_feature_vocabulary (content : NormalizedContent)
    (hint : HintDirective) :
    (classifyPage content hint).features.Sublist
      ["offers", "aggregateRating", "reviews", "breadcrumbs", "faq",
       "video"] ∧
    (classifyPage content hint).features.Nodup ∧
    ∀ f ∈ (applyPolicy (classifyPage content hint) content hint).features,
      f ∈ (classifyPage content hint).features ∨
      ∃ enr, hint.enrich = some enr ∧ f ∈ enr := by
  refine ⟨?_, ?_, ?_⟩
  · rw [classifyPage_features_eq]
    exact detectFeatures_sublist content
  · rw [classifyPage_features_eq]
    exact (detectFeatures_sublist content).nodup (by decide)
  · exact applyPolicy_features_provenance (classifyPage content hint)
      content hint

/-- C10 witness: on a concrete page with offers detected, the offers
feature of the policy output is accounted for. -/
theorem c10_feature_vocabulary_witness :
    "offers" ∈ (classifyPage c10Content hintEmpty).features ∨
    ∃ enr, hintEmpty.enrich = some enr ∧ "offers" ∈ enr :=
  (c10_feature_vocabulary c10Content hintEmpty).2.2 "offers" (by decide)

/-- Reconstruction of the scheme split on a rebuilt URL whose scheme
contains no colon. -/
theorem findSchemeSplit_reconstruct (pre post : List Char)
    (hpre : ∀ c ∈ pre, c ≠ ':') :
    findSchemeSplit (pre ++ ':' :: '/' :: '/' :: post) = some (pre, post) := by
  induction pre with
  | nil => simp [findSchemeSplit, matchesAt]
  | cons c rest ih =>
      have hc : c ≠ ':' := hpre c (List.mem_cons_self _ _)
      have ih' := ih (fun d hd => hpre d (List.mem_cons_of_mem _ hd))
      rw [List.cons_append]
      unfold findSchemeSplit
      rw [if_neg (by simp [hc])]
      rw [ih']

theorem parseURL_reconstruct (s : String) (u : URLParts)
    (h : parseURL s = some u) :
    (parseURL (u.protocol ++ "//" ++ u.host)).isSome ∧
    u.protocol ++ "//" ++ u.host ≠ "" := by
  unfold parseURL at h
  rcases hfs : findSchemeSplit s.toList with _ | ⟨pre, post⟩ <;> rw [hfs] at h <;>
    dsimp only at h
  · exact absurd h (by simp)
  · rcases pre with _ | ⟨c0, restPre⟩ <;> dsimp only at h
    · exact absurd h (by simp)
    · by_cases hok : (isAsciiLetter c0 && restPre.all isSchemeChar) = true
      · rw [if_pos hok] at h
        by_cases hne : (decide (List.takeWhile (fun c => !endsAuthority c) post ≠ []) &&
            decide (List.takeWhile (fun c => decide (c ≠ ':'))
              (List.takeWhile (fun c => !endsAuthority c) post) ≠ [])) = true
        · rw [if_pos hne] at h
          have h2 := Option.some.inj h
          subst h2
          -- now compute the reconstruction
          have hallpre : ∀ c ∈ c0 :: restPre, c ≠ ':' := by
            intro c hcmem
            rcases List.mem_cons.mp hcmem with rfl | hcm
            · intro hcc
              rw [hcc] at hok
              simp [isAsciiLetter, isLowerAZ, isUpperAZ] at hok
            · intro hcc
              have := (List.all_eq_true.mp (Bool.and_elim_right hok)) c hcm
              rw [hcc] at this
              simp [isSchemeChar, isAsciiLetter, isLowerAZ, isUpperAZ] at this
          have hdata : (String.mk (c0 :: restPre ++ [':']) ++ "//" ++
              String.mk (List.takeWhile (fun c => !endsAuthority c) post)).toList =
              (c0 :: restPre) ++ ':' :: '/' :: '/' ::
                (List.takeWhile (fun c => !endsAuthority c) post) := by
            show (String.mk _ ++ String.mk _ ++ String.mk _).data = _
            simp [String.data_append]
          constructor
          · unfold parseURL
            rw [hdata, findSchemeSplit_reconstruct _ _ hallpre]
            dsimp only
            rw [if_pos hok]
            rw [List.takeWhile_idem]
            rw [if_pos hne]
            simp
          · intro hemp
            have : (String.mk (c0 :: restPre ++ [':']) ++ "//" ++
                String.mk (List.takeWhile (fun c => !endsAuthority c) post)).toList = [] := by
              rw [hemp]; rfl
            rw [hdata] at this
            simp at this
        · rw [if_neg hne] at h
          exact absurd h (by simp)
      · rw [if_neg hok] at h
        exact absurd h (by simp)

/-- Field read through a field update on an object. -/

theorem jsGet_objSet_obj (fs : List (String × Json)) (k k' : String) (v : Json) :
    jsGet (objSet (Json.obj fs) k v) k' =
      if k' = k then some v else jsGet (Json.obj fs) k' := by
  simp [objSet, jsGet, lookupField_setField]

/-- Product property population leaves the at-type untouched. -/
theorem type_product (e : Json) (p : PolicyResult) (c : NormalizedContent) :
    jsGet (assembleProductProperties e p c) "@type" = jsGet e "@type" := by
  unfold assembleProductProperties
  split_ifs <;> simp [jsGet_objSet_ne]

/-- Article property population leaves the at-type untouched. -/
theorem type_article (e : Json) (today : String) (c : NormalizedContent)
    (siteUrl : String) :
    jsGet (assembleArticleProperties e today c siteUrl) "@type" =
      jsGet e "@type" := by
  unfold assembleArticleProperties
  split_ifs <;> simp [jsGet_objSet_ne]

/-- LocalBusiness property population leaves the at-type untouched. -/
theorem type_localbusiness (e : Json) (c : NormalizedContent) :
    jsGet (assembleLocalBusinessProperties e c) "@type" = jsGet e "@type" := by
  unfold assembleLocalBusinessProperties
  rcases extractAddress c with _ | a <;> rcases extractPhone c with _ | ph <;>
    split_ifs <;> simp [jsGet_objSet_ne]

/-- Event property population leaves the at-type untouched. -/
theorem type_event (e : Json) (today : String) (c : NormalizedContent) :
    jsGet (assembleEventProperties e today c) "@type" = jsGet e "@type" := by
  unfold assembleEventProperties
  simp [jsGet_objSet_ne]

/-- Recipe property population leaves the at-type untouched. -/
theorem type_recipe (e : Json) (c : NormalizedContent) :
    jsGet (assembleRecipeProperties e c) "@type" = jsGet e "@type" := by
  unfold assembleRecipeProperties
  rcases extractCookTime c with _ | t <;> simp [jsGet_objSet_ne]

/-- HowTo property population leaves the at-type untouched. -/
theorem type_howto (e : Json) (c : NormalizedContent) :
    jsGet (assembleHowToProperties e c) "@type" = jsGet e "@type" := by
  unfold assembleHowToProperties
  simp [jsGet_objSet_ne]

/-- ItemList property population leaves the at-type untouched. -/
theorem type_itemlist (e : Json) (c : NormalizedContent) :
    jsGet (assembleItemListProperties e c) "@type" = jsGet e "@type" := by
  unfold assembleItemListProperties
  simp [jsGet_objSet_ne]

/-- WebPage property population leaves the at-type untouched. -/
theorem type_webpage (e : Json) (c : NormalizedContent) (siteUrl : String) :
    jsGet (assembleWebPageProperties e c siteUrl) "@type" = jsGet e "@type" := by
  unfold assembleWebPageProperties
  split_ifs <;> simp [jsGet_objSet_ne]

/-- The at-type of the assembled primary entity is the subtype when
truthy, else the primary type. -/
theorem assemblePrimaryEntity_type (today : String) (p : PolicyResult)
    (content : NormalizedContent) (e : Json)
    (h : assemblePrimaryEntity today p content = some e) :
    jsGet e "@type" = some (Json.str (jsOrStr p.subtype p.primaryType)) := by
  unfold assemblePrimaryEntity at h
  rcases hu : parseURL (jsOrStr content.canonicalUrl content.url) with _ | baseUrl <;>
    rw [hu] at h <;> dsimp only at h
  · exact absurd h (by simp)
  · split_ifs at h <;> injection h with h2 <;> subst h2 <;>
      simp only [type_product, type_article, type_localbusiness, type_event,
        type_recipe, type_howto, type_itemlist, type_webpage] <;>
      first
        | (rw [jsGet_objSet_ne _ _ _ _ (by decide)]; simp [jsGet, lookupField])
        | simp [jsGet, lookupField]

/-- The policy mentions list only ever contains the demoted Product
type. -/
theorem mentions_only_product (cl : Classification)
    (content : NormalizedContent) (hint : HintDirective) :
    ∀ m ∈ (applyPolicy cl content hint).mentions, m = "Product" := by
  intro m hm
  simp only [applyPolicy] at hm
  by_cases hl : cl.signals.length > 1
  · rw [if_pos hl] at hm
    unfold detectConflictingTypes at hm
    split_ifs at hm <;> simp_all
  · rw [if_neg hl] at hm
    simp at hm

/-- C6 counterexample: a Product classification whose signals mention
both Product and Article keeps Product as the assembled primary at-type
while the policy also demotes Product into mentions, so a mention can
equal the primary at-type. -/
theorem c6_counterexample :
    "Product" ∈ (applyPolicy c6xCl c6xContent hintEmpty).mentions ∧
    jsGet ((assemblePrimaryEntity "2026-01-01"
        (applyPolicy c6xCl c6xContent hintEmpty) c6xContent).getD Json.null)
      "@type" = some (Json.str "Product") :=
  ⟨by decide, rfl⟩

/-- C6 amended: the mentions list can only contain Product, so whenever
the assembled primary entity at-type (subtype if truthy, else primary
type) is not Product, no mention equals the primary at-type; the
mentions attachment of assembleSchema adds only a mentions field and
leaves the at-type unchanged. -/
theorem c6_amended_mentions_demoted (today : String) (cl : Classification)
    (content : NormalizedContent) (hint : HintDirective) (e : Json)
    (hA : assemblePrimaryEntity today (applyPolicy cl content hint)
      content = some e)
    (hne : jsOrStr (applyPolicy cl content hint).subtype
      (applyPolicy cl content hint).primaryType ≠ "Product") :
    ∀ m ∈ (applyPolicy cl content hint).mentions,
      jsGet e "@type" ≠ some (Json.str m) := by
  intro m hm heq
  rw [assemblePrimaryEntity_type _ _ _ _ hA] at heq
  have hmp := mentions_only_product cl content hint m hm
  subst hmp
  exact hne (by simpa using heq)

/-- C6 amended witness: on a concrete WebPage classification with a
demoted Product mention, the assembled at-type differs from the
mention. -/
theorem c6_amended_mentions_demoted_witness :
    jsGet ((assemblePrimaryEntity "2026-01-01"
        (applyPolicy c6wCl c6wContent hintEmpty) c6wContent).getD Json.null)
      "@type" ≠ some (Json.str "Product") :=
  c6_amended_mentions_demoted "2026-01-01" c6wCl c6wContent hintEmpty
    ((assemblePrimaryEntity "2026-01-01"
      (applyPolicy c6wCl c6wContent hintEmpty) c6wContent).getD Json.null)
    rfl (by decide) "Product" (by decide)

/-- The Product validator never emits the Event field errors. -/
theorem no_event_err_product (e : Json) :
    "Event missing required startDate" ∉ (validateProduct e).1 ∧
    "Event missing required location" ∉ (validateProduct e).1 := by
  constructor <;> intro hs <;> unfold validateProduct at hs <;>
    rcases ho : jsGet e "offers" with _ | v <;> rw [ho] at hs <;>
    dsimp only at hs <;> split_ifs at hs <;> simp_all

/-- The Article validator never emits the Event field errors. -/
theorem no_event_err_article (e : Json) :
    "Event missing required startDate" ∉ (validateArticle e).1 ∧
    "Event missing required location" ∉ (validateArticle e).1 := by
  constructor <;> intro hs <;> unfold validateArticle at hs <;>
    split_ifs at hs <;> simp_all

/-- The LocalBusiness validator never emits the Event field errors. -/
theorem no_event_err_localbusiness (e : Json) :
    "Event missing required startDate" ∉ (validateLocalBusiness e).1 ∧
    "Event missing required location" ∉ (validateLocalBusiness e).1 := by
  constructor <;> intro hs <;> unfold validateLocalBusiness at hs <;>
    split_ifs at hs <;> simp_all

/-- The Recipe validator never emits the Event field errors. -/
theorem no_event_err_recipe (e : Json) :
    "Event missing required startDate" ∉ (validateRecipe e).1 ∧
    "Event missing required location" ∉ (validateRecipe e).1 := by
  constructor <;> intro hs <;> unfold validateRecipe at hs <;>
    split_ifs at hs <;> simp_all

/-- The Organization validator never emits the Event field errors. -/
theorem no_event_err_organization (e : Json) :
    "Event missing required startDate" ∉ (validateOrganization e).1 ∧
    "Event missing required location" ∉ (validateOrganization e).1 := by
  constructor <;> intro hs <;> unfold validateOrganization at hs <;>
    split_ifs at hs <;> simp_all

/-- The WebSite validator never emits the Event field errors. -/
theorem no_event_err_website (e : Json) :
    "Event missing required startDate" ∉ (validateWebSite e).1 ∧
    "Event missing required location" ∉ (validateWebSite e).1 := by
  constructor <;> intro hs <;> unfold validateWebSite at hs <;>
    split_ifs at hs <;> simp_all

/-- The Event validator with truthy startDate and location emits neither
Event field error. -/
theorem no_event_err_event (e : Json)
    (hsd : jsTruthyO (jsGet e "startDate") = true)
    (hloc : jsTruthyO (jsGet e "location") = true) :
    "Event missing required startDate" ∉ (validateEvent e).1 ∧
    "Event missing required location" ∉ (validateEvent e).1 := by
  constructor <;> intro hs <;> unfold validateEvent at hs <;>
    rw [hsd, hloc] at hs <;> split_ifs at hs <;> simp_all

/-- The head of an appended string is the head of its non-empty
prefix. -/
theorem append_data_head (p x : String) (c : Char)
    (hp : p.data.head? = some c) : (p ++ x).data.head? = some c := by
  obtain ⟨l⟩ := x
  obtain ⟨lp⟩ := p
  rw [String.data_append]
  cases lp
  · simp at hp
  · simpa using hp

/-- An entity whose at-type is Event only with truthy startDate and
location never contributes an Event field error. -/
theorem validateEntity_no_event_err (e : Json)
    (hEv : jsGet e "@type" = some (Json.str "Event") →
      jsTruthyO (jsGet e "startDate") = true ∧
      jsTruthyO (jsGet e "location") = true) :
    "Event missing required startDate" ∉ (validateEntity e).1 ∧
    "Event missing required location" ∉ (validateEntity e).1 := by
  have hI : ∀ (p x : String), p.data.head? = some 'I' →
      ("Event missing required startDate" ≠ p ++ x ∧
       "Event missing required location" ≠ p ++ x) := by
    intro p x hp
    constructor <;> intro h <;>
      have h2 := append_data_head p x 'I' hp <;> rw [← h] at h2 <;> simp at h2
  have hcommon : ∀ s ∈ (match jsGet e "url" with
      | some u => if jsTruthy u && !jsIsValidUrl u then
          ["Invalid URL: " ++ jsDisplay u] else []
      | none => []) ++ (match jsGet e "image" with
      | some im => if jsTruthy im && !jsIsValidUrl im then
          ["Invalid image URL: " ++ jsDisplay im] else []
      | none => []),
      "Event missing required startDate" ≠ s ∧
      "Event missing required location" ≠ s := by
    intro s hsmem
    rcases List.mem_append.mp hsmem with h | h
    · rcases hu : jsGet e "url" with _ | u <;> rw [hu] at h <;> dsimp only at h
      · simp at h
      · split_ifs at h
        · simp at h
          subst h
          exact hI _ _ rfl
        · simp at h
    · rcases hu : jsGet e "image" with _ | u <;> rw [hu] at h <;> dsimp only at h
      · simp at h
      · split_ifs at h
        · simp at h
          subst h
          exact hI _ _ rfl
        · simp at h
  unfold validateEntity
  by_cases htr : jsTruthyO (jsGet e "@type") = true
  · rw [if_neg (by simp [htr])]
    dsimp only
    constructor <;> intro hmem <;> rw [List.append_assoc] at hmem <;>
      rcases List.mem_append.mp hmem with hty | hco
    · rcases hty2 : jsGet e "@type" with _ | v <;> rw [hty2] at hty
      · simp at hty
      · rcases v with t | n | b | _ | a | o <;> try simp at hty
        · split_ifs at hty with h1 h2 h3 h4 h5 h6 h7
          · exact (no_event_err_product e).1 hty
          · exact (no_event_err_article e).1 hty
          · exact (no_event_err_localbusiness e).1 hty
          · subst h4
            exact (no_event_err_event e (hEv hty2).1 (hEv hty2).2).1 hty
          · exact (no_event_err_recipe e).1 hty
          · exact (no_event_err_organization e).1 hty
          · exact (no_event_err_website e).1 hty
          · simp at hty
    · exact ((hcommon _ hco).1 rfl).elim
    · rcases hty2 : jsGet e "@type" with _ | v <;> rw [hty2] at hty
      · simp at hty
      · rcases v with t | n | b | _ | a | o <;> try simp at hty
        · split_ifs at hty with h1 h2 h3 h4 h5 h6 h7
          · exact (no_event_err_product e).2 hty
          · exact (no_event_err_article e).2 hty
          · exact (no_event_err_localbusiness e).2 hty
          · subst h4
            exact (no_event_err_event e (hEv hty2).1 (hEv hty2).2).2 hty
          · exact (no_event_err_recipe e).2 hty
          · exact (no_event_err_organization e).2 hty
          · exact (no_event_err_website e).2 hty
          · simp at hty
    · exact ((hcommon _ hco).2 rfl).elim
  · rw [if_pos (by simpa using htr)]
    constructor <;> intro hmem <;> simp_all

/-- A date match is a non-empty string. -/
theorem tryDateAt_ne_empty (cs : List Char) (s : String)
    (h : tryDateAt cs = some s) : s ≠ "" := by
  unfold tryDateAt at h
  split at h
  · split_ifs at h
    · injection h with h2
      subst h2
      intro hemp
      have h3 := congrArg String.data hemp
      simp at h3
  · cases h

/-- The leftmost date match is a non-empty string. -/
theorem dateFind_ne_empty :
    ∀ (cs : List Char) (s : String), dateFind cs = some s → s ≠ "" := by
  intro cs
  induction cs with
  | nil => intro s h; simp [dateFind] at h
  | cons c rest ih =>
      intro s h
      unfold dateFind at h
      rcases ht : tryDateAt (c :: rest) with _ | m <;> rw [ht] at h <;>
        dsimp only at h
      · exact ih s h
      · injection h with h2
        subst h2
        exact tryDateAt_ne_empty _ _ ht

/-- The extracted event date is non-empty when the current date is. -/
theorem extractEventDate_ne_empty (today : String)
    (content : NormalizedContent) (hT : today ≠ "") :
    extractEventDate today content ≠ "" := by
  unfold extractEventDate
  rcases hd : dateFind content.content.toList with _ | s
  · simpa using hT
  · simpa using dateFind_ne_empty _ _ hd

/-- The breadcrumb node carries the BreadcrumbList at-type. -/
theorem assembleBreadcrumbs_type (content : NormalizedContent) (b : Json)
    (h : assembleBreadcrumbs content = some b) :
    jsGet b "@type" = some (Json.str "BreadcrumbList") := by
  unfold assembleBreadcrumbs at h
  rcases hb : breadcrumbFind content.content.toList with _ | m <;>
    rw [hb] at h <;> dsimp only at h
  · exact absurd h (by simp)
  · injection h with h2
    subst h2
    simp [jsGet, lookupField]

/-- The assembled Event primary entity always carries a startDate and
the placeholder Place location. -/
theorem event_entity_fields (today : String) (pr : PolicyResult)
    (content : NormalizedContent) (e : Json)
    (hE : pr.primaryType = "Event")
    (h : assemblePrimaryEntity today pr content = some e) :
    jsGet e "startDate" = some (Json.str (extractEventDate today content)) ∧
    jsGet e "location" = some (Json.obj
      [("@type", Json.str "Place"), ("name", Json.str "Event Location")]) := by
  unfold assemblePrimaryEntity at h
  rcases hu : parseURL (jsOrStr content.canonicalUrl content.url)
    with _ | baseUrl <;> rw [hu] at h <;> dsimp only at h
  · exact absurd h (by simp)
  · rw [hE] at h
    rw [if_neg (by decide), if_neg (by decide), if_neg (by decide),
      if_pos rfl] at h
    split_ifs at h <;> injection h with h2 <;> subst h2 <;>
      simp [assembleEventProperties, extractEventLocation, objSet, jsGet,
        lookupField_setField]

/-- The validator errors of an assembled document are exactly the
per-entity errors. -/
theorem validateSchema_errors_literal (graph : List Json) :
    (validateSchema (Json.obj [("@context", Json.str "https://schema.org"),
      ("@graph", Json.arr graph)])).errors =
      ((graph.map validateEntity).map Prod.fst).flatten := by
  unfold validateSchema
  simp [jsGet, lookupField, jsTruthyO, jsTruthy, jsIsArrayO, jsIsArray]

/-- C7: for every Event policy result on content with a parseable URL,
the assembled primary entity always carries a startDate (the extracted
date, else the current date) and the placeholder Place location, and
consequently validateSchema never emits the Event missing-startDate or
missing-location errors for the assembled document.  The current date is
threaded as the parameter today, which the platform clock always renders
non-empty. -/
theorem c7_event_placeholders (today : String) (pr : PolicyResult)
    (content : NormalizedContent) (doc : Json)
    (hE : pr.primaryType = "Event") (hT : today ≠ "")
    (hDoc : assembleSchema today pr content = some doc) :
    (∀ e, assemblePrimaryEntity today pr content = some e →
      (jsGet e "startDate").isSome ∧
      jsGet e "location" = some (Json.obj
        [("@type", Json.str "Place"), ("name", Json.str "Event Location")])) ∧
    "Event missing required startDate" ∉ (validateSchema doc).errors ∧
    "Event missing required location" ∉ (validateSchema doc).errors := by
  unfold assembleSchema at hDoc
  rcases hu : parseURL (jsOrStr content.canonicalUrl content.url)
    with _ | baseUrl <;> rw [hu] at hDoc <;> dsimp only at hDoc
  · cases hDoc
  rcases ho : extractOrganizationName content with _ | orgName <;>
    rw [ho] at hDoc <;> dsimp only at hDoc
  · cases hDoc
  rcases hsn : extractSiteName content with _ | siteName <;>
    rw [hsn] at hDoc <;> dsimp only at hDoc
  · cases hDoc
  rcases hpe : assemblePrimaryEntity today pr content with _ | pe <;>
    rw [hpe] at hDoc <;> dsimp only at hDoc
  · cases hDoc
  injection hDoc with hdoc2
  subst hdoc2
  have hfields := event_entity_fields today pr content pe hE hpe
  have htype := assemblePrimaryEntity_type today pr content pe hpe
  -- every entity of the assembled graph is safe for the two Event errors
  have hentity : ∀ ent ∈ ([Json.obj
        [("@type", Json.str "Organization"),
         ("@id", Json.str (baseUrl.protocol ++ "//" ++ baseUrl.host ++
           "/#organization")),
         ("name", Json.str orgName),
         ("url", Json.str (baseUrl.protocol ++ "//" ++ baseUrl.host))],
       Json.obj
        [("@type", Json.str "WebSite"),
         ("@id", Json.str (baseUrl.protocol ++ "//" ++ baseUrl.host ++
           "/#website")),
         ("url", Json.str (baseUrl.protocol ++ "//" ++ baseUrl.host)),
         ("name", Json.str siteName),
         ("publisher", Json.obj
           [("@id", Json.str (baseUrl.protocol ++ "//" ++ baseUrl.host ++
             "/#organization"))])]] ++
      (if pr.features.contains "breadcrumbs" then
        match assembleBreadcrumbs content with
        | some b => [b]
        | none => []
      else []) ++
      [if pr.mentions.length > 0 then
        objSet pe "mentions" (Json.arr (pr.mentions.map fun mention =>
          Json.obj [("@type", Json.str mention),
                    ("name", Json.str content.title)]))
      else pe]),
      "Event missing required startDate" ∉ (validateEntity ent).1 ∧
      "Event missing required location" ∉ (validateEntity ent).1 := by
    intro ent hent
    simp only [List.mem_append, List.mem_cons, List.not_mem_nil,
      or_false] at hent
    rcases hent with ((rfl | rfl) | hbc) | rfl
    · exact validateEntity_no_event_err _
        (by intro hcon; simp [jsGet, lookupField] at hcon)
    · exact validateEntity_no_event_err _
        (by intro hcon; simp [jsGet, lookupField] at hcon)
    · -- breadcrumb node
      by_cases hf : pr.features.contains "breadcrumbs" = true
      · rw [if_pos hf] at hbc
        rcases hb : assembleBreadcrumbs content with _ | b <;> rw [hb] at hbc
        · simp at hbc
        · simp at hbc
          subst hbc
          refine validateEntity_no_event_err _ ?_
          intro hcon
          rw [assembleBreadcrumbs_type content ent hb] at hcon
          simp at hcon
      · rw [if_neg hf] at hbc
        simp at hbc
    · -- primary entity (with optional mentions attachment)
      have hpres : ∀ k, k ≠ "mentions" →
          jsGet (if pr.mentions.length > 0 then
            objSet pe "mentions" (Json.arr (pr.mentions.map fun mention =>
              Json.obj [("@type", Json.str mention),
                        ("name", Json.str content.title)]))
          else pe) k = jsGet pe k := by
        intro k hk
        split_ifs
        · exact jsGet_objSet_ne _ _ _ _ hk
        · rfl
      refine validateEntity_no_event_err _ ?_
      intro _
      constructor
      · rw [hpres "startDate" (by decide), hfields.1]
        simp [jsTruthyO, jsTruthy,
          extractEventDate_ne_empty today content hT]
      · rw [hpres "location" (by decide), hfields.2]
        simp [jsTruthyO, jsTruthy]
  refine ⟨?_, ?_, ?_⟩
  · intro e' he'
    have h3 := Option.some.inj he'
    subst h3
    exact ⟨by rw [hfields.1]; rfl, hfields.2⟩
  · intro hmem
    rw [validateSchema_errors_literal] at hmem
    rw [List.map_map] at hmem
    rcases List.mem_flatten.mp hmem with ⟨l, hl, hsl⟩
    rcases List.mem_map.mp hl with ⟨ent, hent, rfl⟩
    exact (hentity ent hent).1 hsl
  · intro hmem
    rw [validateSchema_errors_literal] at hmem
    rw [List.map_map] at hmem
    rcases List.mem_flatten.mp hmem with ⟨l, hl, hsl⟩
    rcases List.mem_map.mp hl with ⟨ent, hent, rfl⟩
    exact (hentity ent hent).2 hsl

/-- C7 witness: a concrete Event page without a date in its text still
validates without Event field errors. -/
theorem c7_event_placeholders_witness :
    "Event missing required startDate" ∉
      (validateSchema ((assembleSchema "2026-02-03" c7wPr
        c7wContent).getD Json.null)).errors ∧
    "Event missing required location" ∉
      (validateSchema ((assembleSchema "2026-02-03" c7wPr
        c7wContent).getD Json.null)).errors :=
  ⟨(c7_event_placeholders "2026-02-03" c7wPr c7wContent
      ((assembleSchema "2026-02-03" c7wPr c7wContent).getD Json.null)
      rfl (by decide) rfl).2.1,
   (c7_event_placeholders "2026-02-03" c7wPr c7wContent
      ((assembleSchema "2026-02-03" c7wPr c7wContent).getD Json.null)
      rfl (by decide) rfl).2.2⟩

/-- The or-else of a falsy optional string is its fallback. -/
theorem jsOrStr_falsy (a : Option String) (b : String)
    (h : jsTruthyStr a = false) : jsOrStr a b = b := by
  rcases a with _ | s
  · rfl
  · have hs : s = "" := by simpa [jsTruthyStr] using h
    simp [jsOrStr, hs]

/-- The assembled WebPage primary entity carries the page URL and, with
no OpenGraph image, no image field. -/
theorem webpage_entity_fields (today : String) (pr : PolicyResult)
    (content : NormalizedContent) (e : Json)
    (hPT : pr.primaryType = "WebPage")
    (hOg : jsTruthyStr content.meta.ogImage = false)
    (h : assemblePrimaryEntity today pr content = some e) :
    jsGet e "url" = some (Json.str content.url) ∧
    jsGet e "image" = none := by
  unfold assemblePrimaryEntity at h
  rcases hu : parseURL (jsOrStr content.canonicalUrl content.url)
    with _ | baseUrl <;> rw [hu] at h <;> dsimp only at h
  · cases h
  · rw [hPT] at h
    rw [if_neg (by decide), if_neg (by decide), if_neg (by decide),
      if_neg (by decide), if_neg (by decide), if_neg (by decide),
      if_neg (by decide)] at h
    unfold assembleWebPageProperties at h
    rw [if_neg (by simp [hOg])] at h
    split_ifs at h <;> injection h with h2 <;> subst h2 <;>
      simp [objSet, jsGet, lookupField_setField, lookupField]


/-- schemaOrgValid is the emptiness of the error list. -/
theorem validateSchema_valid_eq (j : Json) :
    (validateSchema j).schemaOrgValid =
      decide ((validateSchema j).errors.length = 0) := rfl

/-- richResultsEligible is the eligibility check over the errors. -/
theorem validateSchema_rre_eq (j : Json) :
    (validateSchema j).richResultsEligible =
      checkRichResultsEligibility j (validateSchema j).errors := rfl

/-- C8 amended: assembling a WebPage policy result (no subtype, features
or mentions) for content with no OpenGraph image and a parseable URL,
then validating, yields no errors and rich-results eligibility, provided
the organization name derived from the host (with the leading www.
stripped) is non-empty.  The counterexample shows the proviso is needed:
a host of exactly www. makes the derived name empty and produces a
blocking error. -/
theorem c8_amended_webpage_roundtrip (today : String) (pr : PolicyResult)
    (content : NormalizedContent) (doc : Json) (orgName : String)
    (hPT : pr.primaryType = "WebPage")
    (hSub : jsTruthyStr pr.subtype = false)
    (hFeat : pr.features = [])
    (hMen : pr.mentions = [])
    (hOg : jsTruthyStr content.meta.ogImage = false)
    (hOrg : extractOrganizationName content = some orgName)
    (hOrgNe : orgName ≠ "")
    (hDoc : assembleSchema today pr content = some doc) :
    (validateSchema doc).errors = [] ∧
    (validateSchema doc).schemaOrgValid = true ∧
    (validateSchema doc).richResultsEligible = true := by
  have hurl2 : (parseURL content.url).isSome = true := by
    unfold extractOrganizationName at hOrg
    rcases hp2 : parseURL content.url with _ | u2 <;> rw [hp2] at hOrg
    · cases hOrg
    · rfl
  unfold assembleSchema at hDoc
  rcases hu : parseURL (jsOrStr content.canonicalUrl content.url)
    with _ | baseUrl <;> rw [hu] at hDoc <;> dsimp only at hDoc
  · cases hDoc
  rw [hOrg] at hDoc
  dsimp only at hDoc
  rcases hsn : extractSiteName content with _ | siteName <;>
    rw [hsn] at hDoc <;> dsimp only at hDoc
  · cases hDoc
  rcases hpe : assemblePrimaryEntity today pr content with _ | pe <;>
    rw [hpe] at hDoc <;> dsimp only at hDoc
  · cases hDoc
  rw [hFeat, hMen] at hDoc
  rw [if_neg (by decide)] at hDoc
  rw [if_neg (by decide)] at hDoc
  injection hDoc with hdoc2
  subst hdoc2
  have hrec := parseURL_reconstruct _ _ hu
  have hsite_valid : (parseURL (baseUrl.protocol ++ "//" ++
      baseUrl.host)).isSome = true := by
    simpa using hrec.1
  have hsite_ne : baseUrl.protocol ++ "//" ++ baseUrl.host ≠ "" := hrec.2
  have htype := assemblePrimaryEntity_type today pr content pe hpe
  rw [jsOrStr_falsy _ _ hSub, hPT] at htype
  have hfields := webpage_entity_fields today pr content pe hPT hOg hpe
  -- per-entity error lists are empty
  have horg : (validateEntity (Json.obj
      [("@type", Json.str "Organization"),
       ("@id", Json.str (baseUrl.protocol ++ "//" ++ baseUrl.host ++
         "/#organization")),
       ("name", Json.str orgName),
       ("url", Json.str (baseUrl.protocol ++ "//" ++ baseUrl.host))])).1 =
      [] := by
    unfold validateEntity validateOrganization
    simp [jsGet, lookupField, jsTruthyO, jsTruthy, jsIsValidUrl, hOrgNe,
      hsite_valid, hsite_ne]
  have hweb : (validateEntity (Json.obj
      [("@type", Json.str "WebSite"),
       ("@id", Json.str (baseUrl.protocol ++ "//" ++ baseUrl.host ++
         "/#website")),
       ("url", Json.str (baseUrl.protocol ++ "//" ++ baseUrl.host)),
       ("name", Json.str siteName),
       ("publisher", Json.obj
         [("@id", Json.str (baseUrl.protocol ++ "//" ++ baseUrl.host ++
           "/#organization"))])])).1 = [] := by
    unfold validateEntity validateWebSite
    simp [jsGet, lookupField, jsTruthyO, jsTruthy, jsIsValidUrl,
      hsite_valid, hsite_ne]
  have hpe_err : (validateEntity pe).1 = [] := by
    simp only [validateEntity, htype, hfields.1, hfields.2]
    simp [jsTruthyO, jsTruthy, jsIsValidUrl, hurl2]
  rw [validateSchema_errors_literal]
  simp only [List.map_cons, List.map_nil, List.flatten]
  rw [horg, hweb, hpe_err]
  have herr : (validateSchema (Json.obj
      [("@context", Json.str "https://schema.org"),
       ("@graph", Json.arr
         ([Json.obj
            [("@type", Json.str "Organization"),
             ("@id", Json.str (baseUrl.protocol ++ "//" ++ baseUrl.host ++
               "/#organization")),
             ("name", Json.str orgName),
             ("url", Json.str (baseUrl.protocol ++ "//" ++ baseUrl.host))],
           Json.obj
            [("@type", Json.str "WebSite"),
             ("@id", Json.str (baseUrl.protocol ++ "//" ++ baseUrl.host ++
               "/#website")),
             ("url", Json.str (baseUrl.protocol ++ "//" ++ baseUrl.host)),
             ("name", Json.str siteName),
             ("publisher", Json.obj
               [("@id", Json.str (baseUrl.protocol ++ "//" ++
                 baseUrl.host ++ "/#organization"))])]] ++ [] ++
          [pe]))])).errors = [] := by
    rw [validateSchema_errors_literal]
    simp only [List.nil_append, List.append_nil, List.map_cons,
      List.map_nil, List.flatten]
    rw [horg, hweb, hpe_err]
    simp
  refine ⟨by simpa using herr, ?_, ?_⟩
  · rw [validateSchema_valid_eq]
    rw [show (validateSchema _).errors = [] from herr]
    simp
  · rw [validateSchema_rre_eq]
    rw [show (validateSchema _).errors = [] from herr]
    unfold checkRichResultsEligibility
    rw [if_neg (by simp)]
    have hfind : findPrimaryEntity
        [Json.obj
            [("@type", Json.str "Organization"),
             ("@id", Json.str (baseUrl.protocol ++ "//" ++ baseUrl.host ++
               "/#organization")),
             ("name", Json.str orgName),
             ("url", Json.str (baseUrl.protocol ++ "//" ++ baseUrl.host))],
          Json.obj
            [("@type", Json.str "WebSite"),
             ("@id", Json.str (baseUrl.protocol ++ "//" ++ baseUrl.host ++
               "/#website")),
             ("url", Json.str (baseUrl.protocol ++ "//" ++ baseUrl.host)),
             ("name", Json.str siteName),
             ("publisher", Json.obj
               [("@id", Json.str (baseUrl.protocol ++ "//" ++
                 baseUrl.host ++ "/#organization"))])],
          pe] = some pe := by
      unfold findPrimaryEntity
      rw [List.find?_cons_of_neg _
        (by simp [jsGet, lookupField, jsTruthyO, jsTruthy])]
      rw [List.find?_cons_of_neg _
        (by simp [jsGet, lookupField, jsTruthyO, jsTruthy])]
      rw [List.find?_cons_of_pos _
        (by simp [htype, jsTruthyO, jsTruthy])]
    have hctx : jsGet (Json.obj
        [("@context", Json.str "https://schema.org"),
         ("@graph", Json.arr
           ([Json.obj
              [("@type", Json.str "Organization"),
               ("@id", Json.str (baseUrl.protocol ++ "//" ++ baseUrl.host ++
                 "/#organization")),
               ("name", Json.str orgName),
               ("url", Json.str (baseUrl.protocol ++ "//" ++ baseUrl.host))],
             Json.obj
              [("@type", Json.str "WebSite"),
               ("@id", Json.str (baseUrl.protocol ++ "//" ++ baseUrl.host ++
                 "/#website")),
               ("url", Json.str (baseUrl.protocol ++ "//" ++ baseUrl.host)),
               ("name", Json.str siteName),
               ("publisher", Json.obj
                 [("@id", Json.str (baseUrl.protocol ++ "//" ++
                   baseUrl.host ++ "/#organization"))])]] ++ [] ++
            [pe]))]) "@graph" = some (Json.arr
           [Json.obj
              [("@type", Json.str "Organization"),
               ("@id", Json.str (baseUrl.protocol ++ "//" ++ baseUrl.host ++
                 "/#organization")),
               ("name", Json.str orgName),
               ("url", Json.str (baseUrl.protocol ++ "//" ++ baseUrl.host))],
             Json.obj
              [("@type", Json.str "WebSite"),
               ("@id", Json.str (baseUrl.protocol ++ "//" ++ baseUrl.host ++
                 "/#website")),
               ("url", Json.str (baseUrl.protocol ++ "//" ++ baseUrl.host)),
               ("name", Json.str siteName),
               ("publisher", Json.obj
                 [("@id", Json.str (baseUrl.protocol ++ "//" ++
                   baseUrl.host ++ "/#organization"))])],
             pe]) := by
      simp [jsGet, lookupField]
    rw [hctx]
    dsimp only
    rw [hfind]
    dsimp only
    rw [htype]
    simp

/-- C8 counterexample: the URL https-www-dot is accepted by the URL
constructor (well-formed for the code itself), yet the assembled WebPage
document fails validation, because the organization name derived from
the hostname www. with the www. prefix stripped is empty. -/
theorem c8_counterexample :
    (parseURL "https://www./x").isSome = true ∧
    (validateSchema ((assembleSchema "2026-02-03" c8Pr c8xContent).getD
      Json.null)).errors = ["Organization missing required name"] ∧
    (validateSchema ((assembleSchema "2026-02-03" c8Pr c8xContent).getD
      Json.null)).schemaOrgValid = false ∧
    (validateSchema ((assembleSchema "2026-02-03" c8Pr c8xContent).getD
      Json.null)).richResultsEligible = false :=
  ⟨by decide, by decide, by decide, by decide⟩

/-- C8 amended witness: a concrete bare WebPage round-trips to a valid,
rich-results-eligible document. -/
theorem c8_amended_webpage_roundtrip_witness :
    (validateSchema ((assembleSchema "2026-02-03" c8Pr c8wContent).getD
      Json.null)).errors = [] ∧
    (validateSchema ((assembleSchema "2026-02-03" c8Pr c8wContent).getD
      Json.null)).schemaOrgValid = true ∧
    (validateSchema ((assembleSchema "2026-02-03" c8Pr c8wContent).getD
      Json.null)).richResultsEligible = true :=
  c8_amended_webpage_roundtrip "2026-02-03" c8Pr c8wContent
    ((assembleSchema "2026-02-03" c8Pr c8wContent).getD Json.null)
    "example.com" rfl rfl rfl rfl rfl rfl (by decide) rfl
